import Mathlib

/-!
Verification development for the photo_archivist scan-and-rank pipeline.

Shallow embedding of the code in `src/app/services/scanner.py`,
`src/app/services/pipeline/{quality,dedupe,selector,scoring,models}.py` and
`src/app/services/scan_manager.py`.

Conventions:
* Python `float` is modelled by `ℚ` (all operations used by this code are
  comparisons, `+`, `-`, `*`, `/`, `min`, `max`, which are exact on `ℚ`).
* Python `dict[str, float]` metric maps are modelled by association lists
  (`Metrics`), with `Metrics.mget` for `dict.get(key, default)` and
  `Metrics.mset` for `dict[key] = value`.
* A decoded PIL image is modelled by the grayscale measurements the code
  derives from it (`ImageData`): mean (`brightness`), standard deviation
  (`contrast`), Laplacian variance (`sharpness`) and the pixel dimensions.
  The pixel-level computations (PIL/OpenCV) are opaque measurements; every
  branch downstream of them is embedded faithfully.
* A `datetime.date` is modelled by `ℤ` (a day number); `<=` on dates is `<=`
  on `ℤ`.
* Python `list.sort(key=..., reverse=True)` / `sorted(..., reverse=True)` is
  a stable descending sort; any stable sort has a unique output, so it is
  modelled by stable insertion (`insertDesc` / `sortDesc`).
-/

namespace PA

/-- Metric maps: `dict[str, float]` as an association list. -/
abbrev Metrics : Type := List (String × ℚ)

/-- `d.get(k, default)`. -/
def Metrics.mget (m : Metrics) (k : String) (d : ℚ) : ℚ :=
  match List.lookup k m with
  | some v => v
  | none => d

/-- `d[k] = v`: replace the binding if the key is present, else append it. -/
def Metrics.mset (m : Metrics) (k : String) (v : ℚ) : Metrics :=
  match m with
  | [] => [(k, v)]
  | (k', v') :: rest =>
      if k' = k then (k', v) :: rest else (k', v') :: Metrics.mset rest k v

/-- `d.setdefault(k, v)`: insert only when the key is absent. -/
def Metrics.msetdefault (m : Metrics) (k : String) (v : ℚ) : Metrics :=
  match List.lookup k m with
  | some _ => m
  | none => m ++ [(k, v)]

/-! ## Quality gates

`QualityGate.evaluate` from `src/app/services/scanner.py` and
`BasicQualityGate.evaluate` from `src/app/services/pipeline/quality.py`.
Both receive a decoded image; the embedding receives the grayscale
measurements the code computes from it. -/

/-- The measurements the quality gates derive from a decoded image. -/
structure ImageData where
  brightness : ℚ
  contrast : ℚ
  sharpness : ℚ
  width : ℕ
  height : ℕ
  deriving DecidableEq

/-- `width / height if height else 0.0`. -/
def ImageData.aspectRatio (img : ImageData) : ℚ :=
  if img.height ≠ 0 then (img.width : ℚ) / (img.height : ℚ) else 0

/-- Constructor keyword arguments shared by both gates. -/
structure GateConfig where
  brightnessDrop : ℚ
  brightnessSoft : ℚ
  contrastDrop : ℚ
  blurDrop : ℚ
  blurSoft : ℚ
  minDimension : ℕ
  minAspect : ℚ
  maxAspect : ℚ
  deriving DecidableEq

/-- The default thresholds of both gates (0.33 as the exact rational). -/
def defaultGate : GateConfig :=
  { brightnessDrop := 30, brightnessSoft := 50, contrastDrop := 10,
    blurDrop := 50, blurSoft := 120, minDimension := 600,
    minAspect := 33/100, maxAspect := 3 }

/-- `QualityAssessment` dataclass (scanner.py / pipeline/models.py). -/
structure QualityAssessment where
  status : String
  notes : List String
  metrics : Metrics
  qualityScore : ℚ
  deriving DecidableEq

/-- The metrics dict both gates build. -/
def gateMetrics (img : ImageData) : Metrics :=
  [("brightness", img.brightness), ("contrast", img.contrast),
   ("sharpness", img.sharpness), ("width", (img.width : ℚ)),
   ("height", (img.height : ℚ)), ("aspect_ratio", img.aspectRatio)]

/-- The brightness check, common to both gates: `(status, notes)` after the
first if/elif block. -/
def brightnessStage (g : GateConfig) (img : ImageData) : String × List String :=
  if img.brightness < g.brightnessDrop then ("drop", ["dark"])
  else if img.brightness < g.brightnessSoft then ("keep", ["dim"])
  else ("keep", [])

/-- The contrast check of scanner.py's gate: a hard drop. -/
def contrastStageScanner (g : GateConfig) (img : ImageData)
    (st : String × List String) : String × List String :=
  if img.contrast < g.contrastDrop then ("drop", st.2 ++ ["low-contrast"])
  else st

/-- The contrast check of pipeline/quality.py's gate: a soft downgrade
unless the status is already `"drop"`. -/
def contrastStageBasic (g : GateConfig) (img : ImageData)
    (st : String × List String) : String × List String :=
  if img.contrast < g.contrastDrop then
    ((if st.1 ≠ "drop" then "soft" else st.1), st.2 ++ ["low-contrast"])
  else st

/-- The sharpness check, common to both gates. -/
def blurStage (g : GateConfig) (img : ImageData)
    (st : String × List String) : String × List String :=
  if img.sharpness < g.blurDrop then ("drop", st.2 ++ ["blurred"])
  else if img.sharpness < g.blurSoft then
    ((if st.1 ≠ "drop" then "soft" else st.1), st.2 ++ ["soft"])
  else st

/-- The minimum-dimension check, common to both gates. -/
def dimensionStage (g : GateConfig) (img : ImageData)
    (st : String × List String) : String × List String :=
  if min img.width img.height < g.minDimension then ("drop", st.2 ++ ["low-res"])
  else st

/-- The aspect-ratio check, common to both gates (`if aspect_ratio and ...`:
Python truthiness of the float). -/
def aspectStage (g : GateConfig) (img : ImageData)
    (st : String × List String) : String × List String :=
  if img.aspectRatio ≠ 0 ∧
      (img.aspectRatio < g.minAspect ∨ img.aspectRatio > g.maxAspect) then
    ("drop", st.2 ++ ["extreme-aspect"])
  else st

/-- `quality_score`, common to both gates. -/
def gateScore (img : ImageData) (notes : List String) : ℚ :=
  let qs0 := img.sharpness + img.brightness * (1/10) + img.contrast * (1/10)
  let qs1 := if "dim" ∈ notes then qs0 - 5 else qs0
  max 0 qs1

/-- `QualityGate.evaluate` from scanner.py: note that a low-contrast frame is
hard-dropped (`status = "drop"` unconditionally on that branch). -/
def QualityGate.evaluate (g : GateConfig) (img : ImageData) : QualityAssessment :=
  let st5 := aspectStage g img (dimensionStage g img (blurStage g img
    (contrastStageScanner g img (brightnessStage g img))))
  let effective := if st5.1 = "keep" ∧ st5.2 ≠ [] then "soft" else st5.1
  { status := effective, notes := st5.2, metrics := gateMetrics img,
    qualityScore := gateScore img st5.2 }

/-- `BasicQualityGate.evaluate` from pipeline/quality.py: the low-contrast
branch only downgrades to `"soft"` when the status is not already `"drop"`. -/
def BasicQualityGate.evaluate (g : GateConfig) (img : ImageData) : QualityAssessment :=
  let st5 := aspectStage g img (dimensionStage g img (blurStage g img
    (contrastStageBasic g img (brightnessStage g img))))
  let st6 : String :=
    if st5.1 = "keep" ∧ ("dim" ∈ st5.2 ∨ "soft" ∈ st5.2) then "soft" else st5.1
  { status := st6, notes := st5.2, metrics := gateMetrics img,
    qualityScore := gateScore img st5.2 }

/-! ## Stable descending sort

`list.sort(key=k, reverse=True)` and `sorted(items, key=k, reverse=True)` are
stable descending sorts; a stable sort's output is unique (a permutation,
ordered descending by key, equal keys in input order), so they are modelled
by stable insertion into an already-sorted accumulator. -/

/-- Insert `x` after every element whose key is not below `key x` (so after
all equal keys: stability) and before the first strictly smaller key. -/
def insertDesc {α : Type} {κ : Type} [LinearOrder κ] (key : α → κ) (x : α) :
    List α → List α
  | [] => [x]
  | h :: t => if key h < key x then x :: h :: t else h :: insertDesc key x t

/-- Stable descending sort by `key`. -/
def sortDesc {α : Type} {κ : Type} [LinearOrder κ] (key : α → κ) (l : List α) :
    List α :=
  l.foldl (fun acc y => insertDesc key y acc) []

/-- Descending-sortedness by `key` (earlier keys never below later keys). -/
def sortedDesc {α : Type} {κ : Type} [LinearOrder κ] (key : α → κ)
    (l : List α) : Prop :=
  l.Pairwise (fun a b => ¬ key a < key b)

/-- The body of `ShortlistSelector.consider` (scanner.py), over an arbitrary
sort key: append the item, stable descending re-sort, `pop()` the last
element when the limit is exceeded. -/
def considerG {α : Type} {κ : Type} [LinearOrder κ] (key : α → κ) (limit : ℕ)
    (s : List α) (x : α) : List α :=
  let t := sortDesc key (s ++ [x])
  if limit < t.length then t.dropLast else t

/-- Feeding a whole list through `consider`, then `results()`. -/
def selectorFold {α : Type} {κ : Type} [LinearOrder κ] (key : α → κ)
    (limit : ℕ) (items : List α) : List α :=
  items.foldl (considerG key limit) []

/-- Lexicographic 6-component sort key (Python tuple comparison order). -/
abbrev Key6 := ℚ ×ₗ (ℚ ×ₗ (ℚ ×ₗ (ℚ ×ₗ (ℚ ×ₗ ℚ))))

/-- Lexicographic 5-component sort key. -/
abbrev Key5 := ℚ ×ₗ (ℚ ×ₗ (ℚ ×ₗ (ℚ ×ₗ ℚ)))

def mkKey6 (a b c d e f : ℚ) : Key6 :=
  toLex (a, toLex (b, toLex (c, toLex (d, toLex (e, f)))))

def mkKey5 (a b c d e : ℚ) : Key5 :=
  toLex (a, toLex (b, toLex (c, toLex (d, e))))

/-! ## PhotoScore and per-file processing (scanner.py) -/

/-- Modelled from the spec: `PhotoScore` is imported by scanner.py from
`app.models` but the class is absent from `src/app/models.py` (an older
iteration); its fields follow the spec's ScoreBundle/shortlist-entry data
model and scanner.py's uses (construction in `BrightnessScoringEngine.score`,
mutation in `_process_image` and `PhashClusterer.cluster`). The perceptual
hash is kept as its bit vector (`str(phash)` is injective on it). -/
structure PhotoScore where
  path : String
  filename : String
  capturedAt : ℤ
  usedFallback : Bool
  score : ℚ
  metrics : Metrics
  qualityScore : ℚ
  qualityStatus : String
  qualityNotes : List String
  phash : List Bool
  clusterId : Option String
  clusterSize : Option ℕ
  clusterRank : Option ℕ
  deriving DecidableEq

/-- A file as the scan loop observes it: its path, whether `Image.open` plus
the per-file pipeline succeeds (`decodeOk = false` models
`UnidentifiedImageError`/`OSError`), the grayscale measurements of the decoded
image, the resolved capture date (metadata resolver output) with its fallback
flag, and the perceptual-hash bits. -/
structure SourceFile where
  path : String
  decodeOk : Bool
  img : ImageData
  capturedDate : ℤ
  usedFallback : Bool
  phash : List Bool
  deriving DecidableEq

/-- `BrightnessScoringEngine.score` (scanner.py): brightness is the grayscale
mean, the same measurement the quality gate takes. -/
def BrightnessScoringEngine.score (f : SourceFile) : PhotoScore :=
  { path := f.path, filename := f.path, capturedAt := f.capturedDate,
    usedFallback := f.usedFallback, score := f.img.brightness,
    metrics := [("brightness", f.img.brightness)],
    qualityScore := f.img.brightness, qualityStatus := "keep",
    qualityNotes := [], phash := [], clusterId := none, clusterSize := none,
    clusterRank := none }

/-- `dict.update(overrides)`. -/
def dictUpdate (m overrides : Metrics) : Metrics :=
  overrides.foldl (fun acc kv => acc.mset kv.1 kv.2) m

/-- `ProcessResult` dataclass (scanner.py). -/
structure ProcessResult where
  inRange : Bool
  dropped : Bool
  score : Option PhotoScore
  phash : Option (List Bool)
  deriving DecidableEq

/-- `PerceptualHasher.distance`: the number of differing fingerprint bits. -/
def hashDistance (p q : List Bool) : ℕ :=
  (List.zipWith xor p q).count true

/-- `_is_within_range` (scanner.py): `start_date <= captured_at.date() <= end_date`. -/
def isWithinRange (capturedAt startDate endDate : ℤ) : Bool :=
  decide (startDate ≤ capturedAt ∧ capturedAt ≤ endDate)

/-- `_process_image` (scanner.py); `none` models the per-file exception
caught by `run_scan` (`UnidentifiedImageError`/`OSError`). -/
def processImage (gate : GateConfig) (startDate endDate : ℤ)
    (f : SourceFile) : Option ProcessResult :=
  if !f.decodeOk then none
  else if !isWithinRange f.capturedDate startDate endDate then
    some { inRange := false, dropped := false, score := none, phash := none }
  else
    let assessment := QualityGate.evaluate gate f.img
    if assessment.status = "drop" then
      some { inRange := true, dropped := true, score := none, phash := none }
    else
      let score0 := BrightnessScoringEngine.score f
      let score :=
        { score0 with
          metrics := dictUpdate score0.metrics assessment.metrics,
          qualityStatus := assessment.status,
          qualityNotes := assessment.notes,
          qualityScore := assessment.qualityScore,
          phash := f.phash }
      some { inRange := true, dropped := false, score := some score,
             phash := some f.phash }

/-- `ScanCandidate` dataclass (scanner.py). -/
structure ScanCandidate where
  score : PhotoScore
  phash : List Bool
  deriving DecidableEq

/-! ## PhashClusterer (scanner.py; pipeline/dedupe.py has the same algorithm) -/

structure ClusterConfig where
  distanceThreshold : ℕ
  keepPerCluster : ℕ
  deriving DecidableEq

def defaultCluster : ClusterConfig :=
  { distanceThreshold := 5, keepPerCluster := 2 }

/-- The inner placement loop of `PhashClusterer.cluster`: walk the existing
clusters in creation order, append the candidate to the first one holding a
member within the distance threshold, else start a new cluster. -/
def placeOne (thr : ℕ) : List (List ScanCandidate) → ScanCandidate →
    List (List ScanCandidate)
  | [], c => [[c]]
  | cl :: rest, c =>
      if cl.any (fun e => hashDistance c.phash e.phash ≤ thr) then
        (cl ++ [c]) :: rest
      else
        cl :: placeOne thr rest c

/-- The cluster-building phase: candidates processed in input order. -/
def buildClusters (thr : ℕ) (cands : List ScanCandidate) :
    List (List ScanCandidate) :=
  cands.foldl (placeOne thr) []

/-- Spec-side placement rule, written from the spec's words: "join the first
existing cluster containing any member within threshold distance, else start
a new cluster". -/
def specPlace (thr : ℕ) (clusters : List (List ScanCandidate))
    (c : ScanCandidate) : List (List ScanCandidate) :=
  match clusters.findIdx?
      (fun cl => cl.any (fun e => hashDistance c.phash e.phash ≤ thr)) with
  | some j => clusters.set j (clusters.getD j [] ++ [c])
  | none => clusters ++ [[c]]

/-- `PhashClusterer._sort_key`: `(status_rank, quality_score, sharpness,
brightness, contrast)`; `quality_score or 0.0` equals the score itself, the
score being a number (0.0 when falsy is the same value). -/
def clusterKey (c : ScanCandidate) : Key5 :=
  mkKey5 (if c.score.qualityStatus = "keep" then 1 else 0)
    c.score.qualityScore
    (c.score.metrics.mget "sharpness" 0)
    (c.score.metrics.mget "brightness" 0)
    (c.score.metrics.mget "contrast" 0)

/-- The cluster fields written onto every member's score. -/
def tagCandidate (cid : String) (size rank : ℕ) (c : ScanCandidate) :
    ScanCandidate :=
  { c with score :=
      { c.score with
          clusterId := some cid
          clusterSize := some size
          clusterRank := some rank } }

/-- `for rank, candidate in enumerate(cluster, start=1): ... if rank <=
keep_per_cluster: survivors.append(candidate)`. -/
def rankTag (cid : String) (size keep : ℕ) : ℕ → List ScanCandidate →
    List ScanCandidate
  | _, [] => []
  | rank, c :: rest =>
      (if rank ≤ keep then [tagCandidate cid size rank c] else []) ++
        rankTag cid size keep (rank + 1) rest

/-- The survivors contributed by the cluster at 0-based position `idx`. -/
def survivorsOf (cfg : ClusterConfig) (idx : ℕ) (cl : List ScanCandidate) :
    List ScanCandidate :=
  let sorted := sortDesc clusterKey cl
  rankTag ("cluster-" ++ toString (idx + 1)) sorted.length
    cfg.keepPerCluster 1 sorted

/-- `PhashClusterer.cluster` (scanner.py). -/
def PhashClusterer.cluster (cfg : ClusterConfig)
    (cands : List ScanCandidate) : List ScanCandidate :=
  if cands = [] then []
  else
    ((buildClusters cfg.distanceThreshold cands).enum.map
      (fun p => survivorsOf cfg p.1 p.2)).flatten

/-! ## AestheticScoringEngine (scanner.py; pipeline/scoring.py is identical) -/

/-- `_stub_score`: the deterministic heuristic (2.5 is 5/2). -/
def stubScore (m : Metrics) : ℚ :=
  let brightness := m.mget "brightness" 0
  let contrast := m.mget "contrast" 0
  let sharpness := m.mget "sharpness" 0
  let base := brightness / 255 * 4 + contrast / 255 * (5/2) +
    min sharpness 300 / 60
  max 0 (min 10 base)

/-- The engine: `use_stub` is true when the backend env selects
stub/disabled/off, when `enabled=False`, or after an earlier failure flipped
it; `hashFile` models `_hash_file` (SHA-256 of the file content); `modelValue`
models `_run_model`'s already-clamped result, `none` being an inference
exception. -/
structure AestheticEngine where
  useStub : Bool
  hashFile : String → ℕ
  modelValue : String → Option ℚ

/-- `AestheticScoringEngine.score`: content-hash cache, stub or model branch,
permanent fallback to the stub on a model failure. -/
def AestheticEngine.scoreOne (e : AestheticEngine) (cache : List (ℕ × ℚ))
    (path : String) (metrics : Metrics) :
    ℚ × AestheticEngine × List (ℕ × ℚ) :=
  let key := e.hashFile path
  match List.lookup key cache with
  | some v => (v, e, cache)
  | none =>
      if e.useStub then
        let v := stubScore metrics
        (v, e, cache ++ [(key, v)])
      else
        match e.modelValue path with
        | some v => (v, e, cache ++ [(key, v)])
        | none =>
            let v := stubScore metrics
            (v, { e with useStub := true }, cache ++ [(key, v)])

/-! ## ShortlistSelector (scanner.py) -/

def SHORTLIST_LIMIT : ℕ := 5

/-- `ShortlistSelector._sort_key` (scanner.py): `(aesthetic, quality_rank,
quality_score, sharpness, brightness, contrast)`. -/
def scannerKey (s : PhotoScore) : Key6 :=
  mkKey6 (s.metrics.mget "aesthetic" s.score)
    (if s.qualityStatus = "keep" then 1 else 0)
    s.qualityScore
    (s.metrics.mget "sharpness" 0)
    (s.metrics.mget "brightness" 0)
    (s.metrics.mget "contrast" 0)

/-- `ShortlistSelector.consider`: append, stable descending re-sort by
`_sort_key`, pop the last element when the limit is exceeded. -/
def considerStep (limit : ℕ) (scores : List PhotoScore) (item : PhotoScore) :
    List PhotoScore :=
  considerG scannerKey limit scores item

/-- Feeding every item to `consider` and reading `results()`. -/
def selectorResults (limit : ℕ) (items : List PhotoScore) : List PhotoScore :=
  selectorFold scannerKey limit items

/-! ## Pipeline-package models and selector (pipeline/models.py, selector.py) -/

structure ScoreBundle where
  path : String
  filename : String
  capturedAt : ℤ
  usedFallback : Bool
  metrics : Metrics
  quality : QualityAssessment
  aesthetic : ℚ
  aggregateScore : ℚ
  deriving DecidableEq

structure ScoredItem where
  bundle : ScoreBundle
  phash : List Bool
  deriving DecidableEq

structure ClusteredItem where
  scored : ScoredItem
  clusterId : Option String
  clusterRank : Option ℕ
  clusterSize : Option ℕ
  deriving DecidableEq

/-- `ShortlistSelector._sort_key` (pipeline/selector.py). -/
def pipelineKey (it : ClusteredItem) : Key6 :=
  let b := it.scored.bundle
  mkKey6 (b.metrics.mget "aesthetic" b.aggregateScore)
    (if b.quality.status = "keep" then 1 else 0)
    b.quality.qualityScore
    (b.metrics.mget "sharpness" 0)
    (b.metrics.mget "brightness" 0)
    (b.metrics.mget "contrast" 0)

/-- `ShortlistSelector.select` (pipeline/selector.py): one stable descending
sort, truncated to the limit. -/
def pipelineSelect (limit : ℕ) (items : List ClusteredItem) :
    List ClusteredItem :=
  (sortDesc pipelineKey items).take limit

/-- `to_photo_score` (pipeline/models.py), landing in the scanner's
`PhotoScore` shape. -/
def toPhotoScore (it : ClusteredItem) : PhotoScore :=
  let b := it.scored.bundle
  { path := b.path, filename := b.filename, capturedAt := b.capturedAt,
    usedFallback := b.usedFallback,
    metrics := b.metrics.msetdefault "aesthetic" b.aesthetic,
    qualityScore := b.quality.qualityScore,
    qualityStatus := b.quality.status,
    qualityNotes := b.quality.notes,
    score := b.aggregateScore,
    clusterId := it.clusterId, clusterSize := it.clusterSize,
    clusterRank := it.clusterRank,
    phash := it.scored.phash }

/-! ## run_scan (scanner.py) -/

/-- Modelled from the spec: the shortlist entry (`PhotoResult`) that
`PhotoResult.from_score` builds; the class in `src/app/models.py` is an older
iteration without `from_score`, the spec's PhotoResult carries the score's
descriptive fields, a stable opaque id, optional thumbnail data and the
mutable `selected` flag. -/
structure PhotoResultM where
  id : ℕ
  score : PhotoScore
  thumbnailPath : Option String
  thumbnailGeneratedAt : Option ℤ
  selected : Bool
  deriving DecidableEq

/-- Modelled from the spec: `PhotoResult.from_score` copies the score's
fields and assigns a fresh opaque identity (uuid4, modelled by the shortlist
position). -/
def fromScore (i : ℕ) (s : PhotoScore) : PhotoResultM :=
  { id := i, score := s, thumbnailPath := none, thumbnailGeneratedAt := none,
    selected := false }

/-- Modelled from the spec: `ScanOutcome` with `discarded_files`
(`src/app/models.py` is an older iteration without that field, which
scanner.py and its tests use). -/
structure ScanOutcomeM where
  results : List PhotoResultM
  totalFiles : ℕ
  matchedFiles : ℕ
  discardedFiles : ℕ
  deriving DecidableEq

/-- The loop state of `run_scan`, with the trace of progress-callback
invocations `(processed, total, matched)` in call order. -/
structure ScanLoopState where
  totalFiles : ℕ
  processedFiles : ℕ
  matchedFiles : ℕ
  discardedFiles : ℕ
  candidates : List ScanCandidate
  trace : List (ℕ × ℕ × ℕ)
  deriving DecidableEq

/-- One iteration of the `run_scan` enumeration loop. -/
def scanStep (gate : GateConfig) (startDate endDate : ℤ)
    (st : ScanLoopState) (f : SourceFile) : ScanLoopState :=
  let total := st.totalFiles + 1
  let trace1 := st.trace ++ [(st.processedFiles, total, st.matchedFiles)]
  match processImage gate startDate endDate f with
  | none =>
      { st with
          totalFiles := total
          processedFiles := st.processedFiles + 1
          trace := trace1 ++ [(st.processedFiles + 1, total, st.matchedFiles)] }
  | some res =>
      let matched := if res.inRange then st.matchedFiles + 1 else st.matchedFiles
      if res.dropped then
        { st with
            totalFiles := total
            matchedFiles := matched
            discardedFiles := st.discardedFiles + 1
            processedFiles := st.processedFiles + 1
            trace := trace1 ++ [(st.processedFiles + 1, total, matched)] }
      else
        let candidates :=
          match res.score, res.phash with
          | some s, some p => st.candidates ++ [⟨s, p⟩]
          | _, _ => st.candidates
        { st with
            totalFiles := total
            matchedFiles := matched
            candidates := candidates
            processedFiles := st.processedFiles + 1
            trace := trace1 ++ [(st.processedFiles + 1, total, matched)] }

/-- The post-clustering loop of `run_scan`: score each clustered candidate
(threading the engine's cache and fallback flag), write
`metrics["aesthetic"]` and `score`, in order. -/
def applyAesthetic : AestheticEngine → List (ℕ × ℚ) → List ScanCandidate →
    List PhotoScore
  | _, _, [] => []
  | e, cache, c :: rest =>
      let r := e.scoreOne cache c.score.path c.score.metrics
      let s := { c.score with
        metrics := c.score.metrics.mset "aesthetic" r.1, score := r.1 }
      s :: applyAesthetic r.2.1 r.2.2 rest

/-- The configuration `run_scan` assembles from its collaborators. -/
structure ScanConfig where
  gate : GateConfig
  clusterCfg : ClusterConfig
  shortlistLimit : ℕ
  engine : AestheticEngine

/-- The loop state before enumeration: zero counters and the initial
`(0, 0, 0)` progress-callback invocation. -/
def initScanState : ScanLoopState :=
  { totalFiles := 0, processedFiles := 0, matchedFiles := 0,
    discardedFiles := 0, candidates := [], trace := [(0, 0, 0)] }

/-- The enumeration loop of `run_scan`. -/
def scanLoop (gate : GateConfig) (startDate endDate : ℤ)
    (files : List SourceFile) : ScanLoopState :=
  files.foldl (scanStep gate startDate endDate) initScanState

/-- The clustered survivors `run_scan` hands to scoring and selection. -/
def scanClustered (cfg : ScanConfig) (startDate endDate : ℤ)
    (files : List SourceFile) : List ScanCandidate :=
  PhashClusterer.cluster cfg.clusterCfg
    (scanLoop cfg.gate startDate endDate files).candidates

/-- The clustered survivors with their aesthetic scores written in. -/
def scanScored (cfg : ScanConfig) (startDate endDate : ℤ)
    (files : List SourceFile) : List PhotoScore :=
  applyAesthetic cfg.engine [] (scanClustered cfg startDate endDate files)

/-- `run_scan` (scanner.py): the enumeration loop, clustering, aesthetic
scoring, shortlist selection and the outcome; paired with the full
progress-callback trace. The enumerated files arrive as the list the
enumerator yields. -/
def runScan (cfg : ScanConfig) (startDate endDate : ℤ)
    (files : List SourceFile) : ScanOutcomeM × List (ℕ × ℕ × ℕ) :=
  let final := scanLoop cfg.gate startDate endDate files
  let shortlist :=
    (selectorResults cfg.shortlistLimit
        (scanScored cfg startDate endDate files)).enum.map
      (fun p => fromScore p.1 p.2)
  ({ results := shortlist, totalFiles := final.totalFiles,
     matchedFiles := final.matchedFiles,
     discardedFiles := final.discardedFiles }, final.trace)

/-! ## ScanManager (scan_manager.py), value-level model

Job and photo identities (uuids) are modelled by `ℕ`; the job maps are
association lists; a dataclass living under the manager's lock is a value in
the state, and the copies the manager hands out are values. -/

/-- `ScanStatus` (models.py), the fields the manager mutates. -/
structure MgrStatus where
  state : String
  processed : ℕ
  total : ℕ
  matched : ℕ
  message : Option String
  deriving DecidableEq

structure MgrState where
  statuses : List (ℕ × MgrStatus)
  outcomes : List (ℕ × ScanOutcomeM)
  deriving DecidableEq

/-- `next((item for item in outcome.results if item.id == photo_id), None)` then
`target.selected = selected`: update the first result with the id. -/
def replaceFirstById (results : List PhotoResultM) (pid : ℕ) (v : Bool) :
    List PhotoResultM :=
  match results with
  | [] => []
  | p :: rest =>
      if p.id = pid then { p with selected := v } :: rest
      else p :: replaceFirstById rest pid v

/-- Replace the binding of `k` in an association list. -/
def aupdate {α : Type} (l : List (ℕ × α)) (k : ℕ) (v : α) : List (ℕ × α) :=
  l.map (fun kv => if kv.1 = k then (k, v) else kv)

/-- The outcome after flipping `selected` on every result whose id is
`pid` (with distinct ids: on the one such result). -/
def selectOutcome (o : ScanOutcomeM) (pid : ℕ) (v : Bool) : ScanOutcomeM :=
  { o with
      results :=
        o.results.map
          (fun q => if q.id = pid then { q with selected := v } else q) }

/-- The `(status, outcome, found)` triple `set_selection` returns. -/
structure SetSelectionReturn where
  status : Option MgrStatus
  outcome : Option ScanOutcomeM
  found : Bool
  deriving DecidableEq

/-- `ScanManager.set_selection`: locate the job's status and outcome, find
the first result with the photo id, flip its `selected` flag in place; report
`False` when the job or the photo is missing. -/
def ScanManager.setSelection (st : MgrState) (sid pid : ℕ) (v : Bool) :
    SetSelectionReturn × MgrState :=
  match List.lookup sid st.statuses, List.lookup sid st.outcomes with
  | some s, some o =>
      if o.results.any (fun p => p.id = pid) then
        let o' := { o with results := replaceFirstById o.results pid v }
        (⟨some s, some o', true⟩,
         { st with outcomes := aupdate st.outcomes sid o' })
      else (⟨some s, some o, false⟩, st)
  | _, _ => (⟨none, none, false⟩, st)

/-- `ScanManager.snapshot`: copies of the stored status and outcome. -/
def ScanManager.snapshot (st : MgrState) (sid : ℕ) :
    Option MgrStatus × Option ScanOutcomeM :=
  (List.lookup sid st.statuses, List.lookup sid st.outcomes)

/-! ## ScanManager, reference-level model (for the copy-depth question)

`get_outcome`/`snapshot` build the returned `ScanOutcome` with
`results=list(outcome.results)`: a fresh list whose elements are the stored
`PhotoResult` objects themselves. The heap maps a reference to the
`PhotoResult` it designates; `hsetSelected` is what a caller's
`photo.selected = v` on a reference it holds does. -/

abbrev Heap := List (ℕ × PhotoResultM)

def hread (h : Heap) (r : ℕ) : Option PhotoResultM :=
  List.lookup r h

/-- A caller mutating `selected` through a reference it holds. -/
def hsetSelected (h : Heap) (r : ℕ) (v : Bool) : Heap :=
  h.map (fun kv => if kv.1 = r then (kv.1, { kv.2 with selected := v }) else kv)

/-- A stored outcome holds references to its `PhotoResult`s. -/
structure HOutcome where
  resultRefs : List ℕ
  totalFiles : ℕ
  matchedFiles : ℕ
  discardedFiles : ℕ
  deriving DecidableEq

structure HMgrState where
  outcomes : List (ℕ × HOutcome)
  deriving DecidableEq

/-- `ScanManager.get_outcome`: a new `ScanOutcome` whose counters are copied
and whose results list is `list(outcome.results)` — the same references. -/
def ScanManager.getOutcomeRefs (st : HMgrState) (sid : ℕ) : Option HOutcome :=
  match List.lookup sid st.outcomes with
  | none => none
  | some o =>
      some { resultRefs := o.resultRefs, totalFiles := o.totalFiles,
             matchedFiles := o.matchedFiles,
             discardedFiles := o.discardedFiles }

/-! ## Derived predicates on enumerated files (used to state loop facts) -/

/-- The file decodes and its resolved capture date is inside the window:
exactly when `run_scan` counts it as matched. -/
def fileSeen (startDate endDate : ℤ) (f : SourceFile) : Bool :=
  f.decodeOk && isWithinRange f.capturedDate startDate endDate

/-- The file is matched and the quality gate drops it. -/
def fileDropped (gate : GateConfig) (startDate endDate : ℤ)
    (f : SourceFile) : Bool :=
  fileSeen startDate endDate f &&
    ((QualityGate.evaluate gate f.img).status == "drop")

/-- The file is matched and survives the quality gate. -/
def fileKept (gate : GateConfig) (startDate endDate : ℤ)
    (f : SourceFile) : Bool :=
  fileSeen startDate endDate f &&
    !((QualityGate.evaluate gate f.img).status == "drop")

/-- The candidate `_process_image` accumulates for a kept file. -/
def candidateOf (gate : GateConfig) (f : SourceFile) : ScanCandidate :=
  let assessment := QualityGate.evaluate gate f.img
  let score0 := BrightnessScoringEngine.score f
  { score :=
      { score0 with
          metrics := dictUpdate score0.metrics assessment.metrics
          qualityStatus := assessment.status
          qualityNotes := assessment.notes
          qualityScore := assessment.qualityScore
          phash := f.phash },
    phash := f.phash }

/-- Non-decrease of `(processed, total)` between consecutive callback
invocations. -/
def traceMono (a b : ℕ × ℕ × ℕ) : Prop :=
  a.1 ≤ b.1 ∧ a.2.1 ≤ b.2.1

/-- The loop invariant tying the callback trace to the loop counters. -/
def loopInv (st : ScanLoopState) : Prop :=
  st.trace.getLast? = some (st.processedFiles, st.totalFiles, st.matchedFiles) ∧
  List.Chain' traceMono st.trace ∧
  st.processedFiles = st.totalFiles

/-! ## Concrete sample data for witnesses -/

/-- A stub-mode engine (backend disabled): content hash by path length. -/
def sampleEngine : AestheticEngine :=
  { useStub := true, hashFile := String.length, modelValue := fun _ => none }

/-- The default collaborators `run_scan` builds. -/
def sampleConfig : ScanConfig :=
  { gate := defaultGate, clusterCfg := defaultCluster,
    shortlistLimit := SHORTLIST_LIMIT, engine := sampleEngine }

/-- A frame passing every gate check. -/
def goodImage : ImageData :=
  { brightness := 200, contrast := 50, sharpness := 500,
    width := 800, height := 800 }

/-- A decodable in-range file with the good frame. -/
def goodFile : SourceFile :=
  { path := "a.jpg", decodeOk := true, img := goodImage, capturedDate := 0,
    usedFallback := true, phash := [] }

/-- A frame failing only the contrast check: bright, sharp, large, square. -/
def lowContrastImage : ImageData :=
  { brightness := 100, contrast := 5, sharpness := 200,
    width := 800, height := 800 }

/-- A solid-dark frame: brightness below `brightness_drop`. -/
def darkImage : ImageData :=
  { brightness := 5, contrast := 50, sharpness := 500,
    width := 800, height := 800 }

/-- A decodable in-range file with the dark frame. -/
def darkFile : SourceFile :=
  { path := "dark.jpg", decodeOk := true, img := darkImage, capturedDate := 0,
    usedFallback := true, phash := [] }

/-- A plain photo score for clusterer witnesses. -/
def sampleScore : PhotoScore :=
  { path := "x.jpg", filename := "x.jpg", capturedAt := 0,
    usedFallback := false, score := 1, metrics := [], qualityScore := 1,
    qualityStatus := "keep", qualityNotes := [], phash := [],
    clusterId := none, clusterSize := none, clusterRank := none }

/-- A candidate with an empty fingerprint. -/
def sampleCand : ScanCandidate :=
  { score := sampleScore, phash := [] }

/-- A pipeline bundle whose `aesthetic`, `aggregate_score` and
`metrics["aesthetic"]` agree, as `MetricScoringEngine.score` builds them. -/
def sampleBundle (q : ℚ) : ScoreBundle :=
  { path := "p.jpg", filename := "p.jpg", capturedAt := 0,
    usedFallback := false, metrics := [("aesthetic", q)],
    quality := { status := "keep", notes := [], metrics := [],
                 qualityScore := 0 },
    aesthetic := q, aggregateScore := q }

/-- A clustered item around `sampleBundle`. -/
def sampleItem (q : ℚ) : ClusteredItem :=
  { scored := { bundle := sampleBundle q, phash := [] },
    clusterId := none, clusterRank := none, clusterSize := none }

/-- The photo score the one-good-file scan shortlists: the tagged candidate
with the stub aesthetic written in. -/
def c8ScoredPhoto : PhotoScore :=
  let c := tagCandidate "cluster-1" 1 1 (candidateOf defaultGate goodFile)
  { c.score with
      metrics :=
        Metrics.mset c.score.metrics "aesthetic" (stubScore c.score.metrics)
      score := stubScore c.score.metrics }

/-- A shortlist photo with identity `i` for manager witnesses. -/
def samplePhoto (i : ℕ) : PhotoResultM :=
  fromScore i sampleScore

/-- The status record of the completed sample job. -/
def sampleStatus : MgrStatus :=
  { state := "complete", processed := 2, total := 2, matched := 2,
    message := none }

/-- The outcome record of the completed sample job. -/
def sampleOutcome : ScanOutcomeM :=
  { results := [samplePhoto 0, samplePhoto 1], totalFiles := 2,
    matchedFiles := 2, discardedFiles := 0 }

/-- A manager state holding one completed job (id 1) with two photos. -/
def sampleMgr : MgrState :=
  { statuses := [(1, sampleStatus)], outcomes := [(1, sampleOutcome)] }

/-- A one-job reference-level manager state: job 7, one photo in cell 0. -/
def sampleHeap : Heap := [(0, samplePhoto 0)]

def sampleHOutcome : HOutcome :=
  { resultRefs := [0], totalFiles := 1, matchedFiles := 1,
    discardedFiles := 0 }

def sampleHMgr : HMgrState := { outcomes := [(7, sampleHOutcome)] }

/-! # Theorems -/

/-! ## Metric-map lemmas -/

theorem Metrics.lookup_mset_self (m : Metrics) (k : String) (v : ℚ) :
    List.lookup k (Metrics.mset m k v) = some v := by
  induction m with
  | nil => simp [Metrics.mset, List.lookup]
  | cons p rest ih =>
      obtain ⟨k', v'⟩ := p
      by_cases h : k' = k
      · simp [Metrics.mset, h, List.lookup]
      · simp only [Metrics.mset, if_neg h, List.lookup]
        have hb : (k == k') = false := by
          simp only [beq_eq_false_iff_ne, ne_eq]
          exact fun he => h he.symm
        simp [hb, ih]

theorem Metrics.lookup_mset_other (m : Metrics) (k k' : String) (v : ℚ)
    (h : k' ≠ k) : List.lookup k' (Metrics.mset m k v) = List.lookup k' m := by
  induction m with
  | nil =>
      have hb : (k' == k) = false := by simp [beq_eq_false_iff_ne, h]
      simp [Metrics.mset, List.lookup, hb]
  | cons p rest ih =>
      obtain ⟨ka, va⟩ := p
      by_cases hk : ka = k
      · subst hk
        have hb : (k' == ka) = false := by simp [beq_eq_false_iff_ne, h]
        simp [Metrics.mset, List.lookup, hb]
      · simp only [Metrics.mset, if_neg hk, List.lookup]
        by_cases he : k' = ka
        · simp [he]
        · have hb : (k' == ka) = false := by simp [beq_eq_false_iff_ne, he]
          simp [hb, ih]

theorem Metrics.mget_mset_self (m : Metrics) (k : String) (v d : ℚ) :
    Metrics.mget (Metrics.mset m k v) k d = v := by
  simp [Metrics.mget, Metrics.lookup_mset_self]

theorem Metrics.mget_mset_other (m : Metrics) (k k' : String) (v d : ℚ)
    (h : k' ≠ k) :
    Metrics.mget (Metrics.mset m k v) k' d = Metrics.mget m k' d := by
  simp [Metrics.mget, Metrics.lookup_mset_other m k k' v h]

/-! ## Stable-sort lemmas -/

section SortLemmas

variable {α : Type} {κ : Type} [LinearOrder κ] (key : α → κ)

theorem length_insertDesc (x : α) (l : List α) :
    (insertDesc key x l).length = l.length + 1 := by
  induction l with
  | nil => simp [insertDesc]
  | cons h t ih =>
      by_cases hc : key h < key x <;> simp [insertDesc, hc, ih]

theorem insertDesc_perm (x : α) (l : List α) :
    List.Perm (insertDesc key x l) (x :: l) := by
  induction l with
  | nil => exact List.Perm.refl _
  | cons h t ih =>
      by_cases hc : key h < key x
      · simp [insertDesc, hc]
      · simp only [insertDesc, if_neg hc]
        exact (ih.cons h).trans (List.Perm.swap x h t)

theorem sortDesc_append_singleton (l : List α) (x : α) :
    sortDesc key (l ++ [x]) = insertDesc key x (sortDesc key l) := by
  simp [sortDesc, List.foldl_append]

theorem sortDesc_perm (l : List α) : List.Perm (sortDesc key l) l := by
  induction l using List.reverseRecOn with
  | nil => exact List.Perm.refl _
  | append_singleton l x ih =>
      rw [sortDesc_append_singleton]
      exact ((insertDesc_perm key x (sortDesc key l)).trans (ih.cons x)).trans
        (List.perm_append_singleton x l).symm

theorem length_sortDesc (l : List α) :
    (sortDesc key l).length = l.length :=
  (sortDesc_perm key l).length_eq

theorem mem_sortDesc {l : List α} {x : α} :
    x ∈ sortDesc key l ↔ x ∈ l :=
  (sortDesc_perm key l).mem_iff

theorem insertDesc_sorted (x : α) {l : List α} (h : sortedDesc key l) :
    sortedDesc key (insertDesc key x l) := by
  induction l with
  | nil => simp [insertDesc, sortedDesc]
  | cons hd t ih =>
      rw [sortedDesc, List.pairwise_cons] at h
      obtain ⟨hhd, ht⟩ := h
      by_cases hc : key hd < key x
      · simp only [insertDesc, if_pos hc, sortedDesc, List.pairwise_cons]
        refine ⟨?_, hhd, ht⟩
        intro b hb
        rcases List.mem_cons.mp hb with rfl | hbt
        · exact lt_asymm hc
        · exact fun hxb => absurd (lt_trans hc hxb) (hhd b hbt)
      · simp only [insertDesc, if_neg hc, sortedDesc, List.pairwise_cons]
        refine ⟨?_, ih ht⟩
        intro b hb
        have hb2 : b ∈ x :: t := (insertDesc_perm key x t).subset hb
        rcases List.mem_cons.mp hb2 with rfl | hbt
        · exact hc
        · exact hhd b hbt

theorem sortDesc_sorted (l : List α) : sortedDesc key (sortDesc key l) := by
  induction l using List.reverseRecOn with
  | nil => simp [sortDesc, sortedDesc]
  | append_singleton l x ih =>
      rw [sortDesc_append_singleton]
      exact insertDesc_sorted key x ih

theorem insertDesc_append_of (x : α) (l : List α)
    (h : ∀ a ∈ l, ¬ key a < key x) : insertDesc key x l = l ++ [x] := by
  induction l with
  | nil => simp [insertDesc]
  | cons hd t ih =>
      have hhd : ¬ key hd < key x := h hd (List.mem_cons_self hd t)
      simp [insertDesc, hhd,
        ih (fun a ha => h a (List.mem_cons_of_mem hd ha))]

theorem sortDesc_eq_of_sorted {l : List α} (h : sortedDesc key l) :
    sortDesc key l = l := by
  induction l using List.reverseRecOn with
  | nil => rfl
  | append_singleton l x ih =>
      rw [sortedDesc, List.pairwise_append] at h
      obtain ⟨h1, _, h3⟩ := h
      rw [sortDesc_append_singleton, ih h1]
      exact insertDesc_append_of key x l
        (fun a ha => h3 a ha x (List.mem_singleton.mpr rfl))

theorem sortedDesc_take {l : List α} (h : sortedDesc key l) (n : ℕ) :
    sortedDesc key (l.take n) :=
  List.Pairwise.sublist (List.take_sublist n l) h

theorem take_take_succ {γ : Type} (l : List γ) (m : ℕ) :
    (l.take (m + 1)).take m = l.take m := by
  rw [List.take_take, Nat.min_eq_left (Nat.le_succ m)]

theorem take_cons_take {γ : Type} (hd : γ) (t : List γ) (m : ℕ) :
    (hd :: t.take m).take m = (hd :: t).take m := by
  cases m with
  | zero => simp
  | succ k =>
      simp [List.take_succ_cons, List.take_take, Nat.min_eq_left (Nat.le_succ k)]

theorem take_insertDesc (x : α) (l : List α) (n : ℕ) :
    (insertDesc key x (l.take n)).take n = (insertDesc key x l).take n := by
  induction l generalizing n with
  | nil => simp
  | cons hd t ih =>
      cases n with
      | zero => simp
      | succ m =>
          by_cases hc : key hd < key x
          · simp only [List.take_succ_cons, insertDesc, if_pos hc]
            rw [take_cons_take]
          · simp only [List.take_succ_cons, insertDesc, if_neg hc]
            rw [ih m]

theorem selectorFold_eq (limit : ℕ) (items : List α) :
    selectorFold key limit items = (sortDesc key items).take limit := by
  induction items using List.reverseRecOn with
  | nil => simp [selectorFold, sortDesc]
  | append_singleton l x ih =>
      rw [selectorFold, List.foldl_append, List.foldl_cons, List.foldl_nil,
        ← selectorFold, ih, sortDesc_append_singleton]
      unfold considerG
      rw [sortDesc_append_singleton,
        sortDesc_eq_of_sorted key (sortedDesc_take key (sortDesc_sorted key l) limit)]
      by_cases hlen :
          limit < (insertDesc key x ((sortDesc key l).take limit)).length
      · rw [if_pos hlen]
        rw [length_insertDesc] at hlen
        have htake1 : ((sortDesc key l).take limit).length ≤ limit := by
          simp [List.length_take]
        have htake : ((sortDesc key l).take limit).length = limit := by omega
        rw [List.dropLast_eq_take, length_insertDesc, htake,
          Nat.add_sub_cancel]
        exact take_insertDesc key x (sortDesc key l) limit
      · rw [if_neg hlen]
        rw [length_insertDesc] at hlen
        have hlt : (sortDesc key l).length < limit := by
          rcases Nat.lt_or_ge (sortDesc key l).length limit with h | h
          · exact h
          · exfalso
            have : ((sortDesc key l).take limit).length = limit := by
              simp [List.length_take, Nat.min_eq_left h]
            omega
        have e2 : (sortDesc key l).take limit = sortDesc key l :=
          List.take_of_length_le (Nat.le_of_lt hlt)
        rw [e2]
        have e3 : limit ≤ (insertDesc key x (sortDesc key l)).length → True := fun _ => trivial
        rw [List.take_of_length_le]
        rw [length_insertDesc]
        omega

theorem mem_selectorFold {limit : ℕ} {items : List α} {x : α}
    (h : x ∈ selectorFold key limit items) : x ∈ items := by
  rw [selectorFold_eq] at h
  exact (mem_sortDesc key).mp (List.take_subset limit _ h)

theorem length_selectorFold (limit : ℕ) (items : List α) :
    (selectorFold key limit items).length ≤ limit := by
  rw [selectorFold_eq]
  simp [List.length_take]

theorem selectorFold_all (limit : ℕ) (items : List α)
    (h : items.length ≤ limit) :
    List.Perm (selectorFold key limit items) items := by
  rw [selectorFold_eq, List.take_of_length_le]
  · exact sortDesc_perm key items
  · rw [length_sortDesc]
    exact h

end SortLemmas

/-! ## C1: low contrast and the two quality gates -/

/-! Per-stage propagation lemmas: the later gate checks can only worsen the
status, never improve it, and only append notes. -/

theorem blurStage_fst_drop (g : GateConfig) (img : ImageData)
    (st : String × List String) (h : st.1 = "drop") :
    (blurStage g img st).1 = "drop" := by
  unfold blurStage
  split_ifs <;> simp_all

theorem dimensionStage_fst_drop (g : GateConfig) (img : ImageData)
    (st : String × List String) (h : st.1 = "drop") :
    (dimensionStage g img st).1 = "drop" := by
  unfold dimensionStage
  split_ifs <;> simp_all

theorem aspectStage_fst_drop (g : GateConfig) (img : ImageData)
    (st : String × List String) (h : st.1 = "drop") :
    (aspectStage g img st).1 = "drop" := by
  unfold aspectStage
  split_ifs <;> simp_all

theorem blurStage_fst_nonKeep (g : GateConfig) (img : ImageData)
    (st : String × List String) (h : st.1 ≠ "keep") :
    (blurStage g img st).1 ≠ "keep" := by
  unfold blurStage
  split_ifs with h1 h2 h3 <;> simp_all

theorem dimensionStage_fst_nonKeep (g : GateConfig) (img : ImageData)
    (st : String × List String) (h : st.1 ≠ "keep") :
    (dimensionStage g img st).1 ≠ "keep" := by
  unfold dimensionStage
  split_ifs <;> simp_all

theorem aspectStage_fst_nonKeep (g : GateConfig) (img : ImageData)
    (st : String × List String) (h : st.1 ≠ "keep") :
    (aspectStage g img st).1 ≠ "keep" := by
  unfold aspectStage
  split_ifs <;> simp_all

theorem blurStage_snd_append (g : GateConfig) (img : ImageData)
    (st : String × List String) :
    ∃ t, (blurStage g img st).2 = st.2 ++ t := by
  unfold blurStage
  split_ifs <;>
    first
      | exact ⟨["blurred"], rfl⟩
      | exact ⟨["soft"], rfl⟩
      | exact ⟨[], by simp⟩

theorem dimensionStage_snd_append (g : GateConfig) (img : ImageData)
    (st : String × List String) :
    ∃ t, (dimensionStage g img st).2 = st.2 ++ t := by
  unfold dimensionStage
  split_ifs <;>
    first
      | exact ⟨["low-res"], rfl⟩
      | exact ⟨[], by simp⟩

theorem aspectStage_snd_append (g : GateConfig) (img : ImageData)
    (st : String × List String) :
    ∃ t, (aspectStage g img st).2 = st.2 ++ t := by
  unfold aspectStage
  split_ifs <;>
    first
      | exact ⟨["extreme-aspect"], rfl⟩
      | exact ⟨[], by simp⟩

/-- C1 counterexample: under default thresholds a frame whose contrast (5) is
below `contrast_drop` (10) gets status `"soft"`, not `"drop"`, from the
pipeline gate `BasicQualityGate.evaluate` — the claim's "status is drop" is
false for that evaluate. -/
theorem c1_counterexample :
    lowContrastImage.contrast < defaultGate.contrastDrop ∧
    (BasicQualityGate.evaluate defaultGate lowContrastImage).status ≠ "drop" ∧
    (BasicQualityGate.evaluate defaultGate lowContrastImage).status = "soft" := by
  refine ⟨by norm_num [lowContrastImage, defaultGate], ?_, ?_⟩ <;>
    · simp only [BasicQualityGate.evaluate, aspectStage, dimensionStage,
        blurStage, contrastStageBasic, brightnessStage, ImageData.aspectRatio,
        lowContrastImage, defaultGate]
      norm_num
      decide

/-- C1 (amended): when contrast is below `contrast_drop`, scanner.py's
`QualityGate.evaluate` returns status `"drop"` with note `"low-contrast"`,
while pipeline/quality.py's `BasicQualityGate.evaluate` records the
`"low-contrast"` note and returns a status that is never `"keep"` (it is
`"soft"` unless some other check drops the frame). -/
theorem c1_low_contrast_amended (g : GateConfig) (img : ImageData)
    (h : img.contrast < g.contrastDrop) :
    (QualityGate.evaluate g img).status = "drop" ∧
    "low-contrast" ∈ (QualityGate.evaluate g img).notes ∧
    "low-contrast" ∈ (BasicQualityGate.evaluate g img).notes ∧
    (BasicQualityGate.evaluate g img).status ≠ "keep" := by
  have hsc : contrastStageScanner g img (brightnessStage g img)
      = ("drop", (brightnessStage g img).2 ++ ["low-contrast"]) := by
    simp [contrastStageScanner, h]
  have hbc2 : (contrastStageBasic g img (brightnessStage g img)).2
      = (brightnessStage g img).2 ++ ["low-contrast"] := by
    simp [contrastStageBasic, h]
  have hbc1 : (contrastStageBasic g img (brightnessStage g img)).1 ≠ "keep" := by
    simp only [contrastStageBasic, if_pos h]
    split_ifs with hd
    · simp
    · simp only [ne_eq, not_not] at hd
      simp [hd]
  -- scanner gate: "drop" propagates to the end
  have h5 : (aspectStage g img (dimensionStage g img (blurStage g img
      (contrastStageScanner g img (brightnessStage g img))))).1 = "drop" :=
    aspectStage_fst_drop _ _ _ (dimensionStage_fst_drop _ _ _
      (blurStage_fst_drop _ _ _ (by simp [hsc])))
  -- basic gate: non-"keep" propagates to the end
  have h5b : (aspectStage g img (dimensionStage g img (blurStage g img
      (contrastStageBasic g img (brightnessStage g img))))).1 ≠ "keep" :=
    aspectStage_fst_nonKeep _ _ _ (dimensionStage_fst_nonKeep _ _ _
      (blurStage_fst_nonKeep _ _ _ hbc1))
  -- the note survives every later append
  obtain ⟨t3, e3⟩ := blurStage_snd_append g img
    (contrastStageScanner g img (brightnessStage g img))
  obtain ⟨t4, e4⟩ := dimensionStage_snd_append g img (blurStage g img
    (contrastStageScanner g img (brightnessStage g img)))
  obtain ⟨t5, e5⟩ := aspectStage_snd_append g img (dimensionStage g img
    (blurStage g img (contrastStageScanner g img (brightnessStage g img))))
  obtain ⟨u3, f3⟩ := blurStage_snd_append g img
    (contrastStageBasic g img (brightnessStage g img))
  obtain ⟨u4, f4⟩ := dimensionStage_snd_append g img (blurStage g img
    (contrastStageBasic g img (brightnessStage g img)))
  obtain ⟨u5, f5⟩ := aspectStage_snd_append g img (dimensionStage g img
    (blurStage g img (contrastStageBasic g img (brightnessStage g img))))
  refine ⟨?_, ?_, ?_, ?_⟩
  · simp [QualityGate.evaluate, h5]
  · simp only [QualityGate.evaluate]
    rw [e5, e4, e3, hsc]
    simp
  · simp only [BasicQualityGate.evaluate]
    rw [f5, f4, f3, hbc2]
    simp
  · simp only [BasicQualityGate.evaluate]
    split_ifs with hk
    · simp
    · exact h5b

/-- C1 witness: the amended theorem applied at the concrete low-contrast
frame and the default thresholds. -/
theorem c1_witness :
    (QualityGate.evaluate defaultGate lowContrastImage).status = "drop" ∧
    "low-contrast" ∈ (QualityGate.evaluate defaultGate lowContrastImage).notes ∧
    "low-contrast" ∈ (BasicQualityGate.evaluate defaultGate lowContrastImage).notes ∧
    (BasicQualityGate.evaluate defaultGate lowContrastImage).status ≠ "keep" :=
  c1_low_contrast_amended defaultGate lowContrastImage (by decide)

/-! ## C10: the incremental and the batch shortlist selector agree -/

theorem Metrics.lookup_msetdefault_other (m : Metrics) (k k' : String) (v : ℚ)
    (h : k' ≠ k) :
    List.lookup k' (Metrics.msetdefault m k v) = List.lookup k' m := by
  unfold Metrics.msetdefault
  cases List.lookup k m with
  | some w => rfl
  | none =>
      rw [List.lookup_append]
      have hb : (k' == k) = false := by simp [beq_eq_false_iff_ne, h]
      cases hm : List.lookup k' m with
      | some w => rfl
      | none => simp [List.lookup, hb]

theorem Metrics.mget_msetdefault_other (m : Metrics) (k k' : String) (v d : ℚ)
    (h : k' ≠ k) :
    Metrics.mget (Metrics.msetdefault m k v) k' d = Metrics.mget m k' d := by
  simp [Metrics.mget, Metrics.lookup_msetdefault_other m k k' v h]

/-- The two `_sort_key` functions agree across `to_photo_score` as soon as
the bundle carries an `"aesthetic"` metric or its `aesthetic` equals its
`aggregate_score` (both always hold for `MetricScoringEngine` output). -/
theorem scannerKey_toPhotoScore (it : ClusteredItem)
    (h : it.scored.bundle.aesthetic = it.scored.bundle.aggregateScore ∨
      List.lookup "aesthetic" it.scored.bundle.metrics ≠ none) :
    scannerKey (toPhotoScore it) = pipelineKey it := by
  unfold scannerKey pipelineKey toPhotoScore
  have hsharp := Metrics.mget_msetdefault_other it.scored.bundle.metrics
    "aesthetic" "sharpness" it.scored.bundle.aesthetic 0 (by decide)
  have hbright := Metrics.mget_msetdefault_other it.scored.bundle.metrics
    "aesthetic" "brightness" it.scored.bundle.aesthetic 0 (by decide)
  have hcon := Metrics.mget_msetdefault_other it.scored.bundle.metrics
    "aesthetic" "contrast" it.scored.bundle.aesthetic 0 (by decide)
  have hae : Metrics.mget
      (Metrics.msetdefault it.scored.bundle.metrics "aesthetic"
        it.scored.bundle.aesthetic) "aesthetic" it.scored.bundle.aggregateScore
      = Metrics.mget it.scored.bundle.metrics "aesthetic"
        it.scored.bundle.aggregateScore := by
    unfold Metrics.msetdefault Metrics.mget
    cases hl : List.lookup "aesthetic" it.scored.bundle.metrics with
    | some w => simp [hl]
    | none =>
        rcases h with hagg | hne
        · rw [List.lookup_append, hl]
          simp [List.lookup, hagg]
        · exact absurd hl hne
  simp only [hsharp, hbright, hcon, hae]

theorem insertDesc_map {α β κ : Type} [LinearOrder κ] (k1 : α → κ)
    (k2 : β → κ) (f : α → β) (x : α) (l : List α) (hx : k2 (f x) = k1 x)
    (hl : ∀ y ∈ l, k2 (f y) = k1 y) :
    insertDesc k2 (f x) (l.map f) = (insertDesc k1 x l).map f := by
  induction l with
  | nil => simp [insertDesc]
  | cons hd t ih =>
      have hhd := hl hd (List.mem_cons_self hd t)
      by_cases hc : k1 hd < k1 x
      · simp [insertDesc, hhd, hx, hc]
      · simp [insertDesc, hhd, hx, hc,
          ih (fun y hy => hl y (List.mem_cons_of_mem hd hy))]

theorem sortDesc_map {α β κ : Type} [LinearOrder κ] (k1 : α → κ)
    (k2 : β → κ) (f : α → β) (l : List α)
    (hl : ∀ y ∈ l, k2 (f y) = k1 y) :
    sortDesc k2 (l.map f) = (sortDesc k1 l).map f := by
  induction l using List.reverseRecOn with
  | nil => simp [sortDesc]
  | append_singleton l x ih =>
      rw [List.map_append, List.map_singleton, sortDesc_append_singleton,
        sortDesc_append_singleton,
        ih (fun y hy => hl y (List.mem_append_left _ hy))]
      exact insertDesc_map k1 k2 f x (sortDesc k1 l)
        (hl x (List.mem_append_right _ (List.mem_singleton.mpr rfl)))
        (fun y hy => hl y
          (List.mem_append_left _ ((mem_sortDesc k1).mp hy)))

/-- C10: feeding scored photos one at a time to scanner.py's incremental
`ShortlistSelector` yields exactly the batch `ShortlistSelector.select` of
pipeline/selector.py (same list, same order), for inputs whose bundles carry
a consistent aesthetic (as the scoring engine produces them). -/
theorem c10_selectors_equivalent (limit : ℕ) (items : List ClusteredItem)
    (H : ∀ it ∈ items,
      it.scored.bundle.aesthetic = it.scored.bundle.aggregateScore ∨
      List.lookup "aesthetic" it.scored.bundle.metrics ≠ none) :
    selectorResults limit (items.map toPhotoScore) =
      (pipelineSelect limit items).map toPhotoScore := by
  have hkeys : ∀ it ∈ items, scannerKey (toPhotoScore it) = pipelineKey it :=
    fun it hit => scannerKey_toPhotoScore it (H it hit)
  rw [selectorResults, selectorFold_eq, pipelineSelect,
    sortDesc_map pipelineKey scannerKey toPhotoScore items hkeys,
    List.map_take]

/-- C10 witness: the equivalence applied to two concrete clustered items. -/
theorem c10_witness :
    selectorResults 5 ([sampleItem 3, sampleItem 7].map toPhotoScore) =
      (pipelineSelect 5 [sampleItem 3, sampleItem 7]).map toPhotoScore :=
  c10_selectors_equivalent 5 [sampleItem 3, sampleItem 7]
    (by
      intro it hit
      left
      rcases List.mem_cons.mp hit with rfl | hit2
      · rfl
      · rcases List.mem_cons.mp hit2 with rfl | hit3
        · rfl
        · exact absurd hit3 (List.not_mem_nil it))

/-! ## C3: the shortlist bound -/

theorem length_applyAesthetic (e : AestheticEngine) (cache : List (ℕ × ℚ))
    (l : List ScanCandidate) :
    (applyAesthetic e cache l).length = l.length := by
  induction l generalizing e cache with
  | nil => simp [applyAesthetic]
  | cons c rest ih => simp [applyAesthetic, ih]

theorem mem_enumFrom_map_fromScore {L : List PhotoScore} {y : PhotoScore}
    (hy : y ∈ L) (n : ℕ) :
    ∃ r ∈ (List.enumFrom n L).map (fun p => fromScore p.1 p.2),
      r.score = y := by
  induction L generalizing n with
  | nil => exact absurd hy (List.not_mem_nil y)
  | cons hd t ih =>
      rcases List.mem_cons.mp hy with rfl | hyt
      · exact ⟨fromScore n y, by simp [List.enumFrom_cons], rfl⟩
      · obtain ⟨r, hr, hrs⟩ := ih hyt (n + 1)
        refine ⟨r, ?_, hrs⟩
        simp only [List.enumFrom_cons, List.map_cons]
        exact List.mem_cons_of_mem _ hr

/-- C3: a scan outcome's results list never exceeds the shortlist limit
(`SHORTLIST_LIMIT = 5` by default), and when fewer candidates than the limit
survive clustering, every one of them appears in the results. -/
theorem c3_shortlist_bound (cfg : ScanConfig) (startDate endDate : ℤ)
    (files : List SourceFile) :
    (runScan cfg startDate endDate files).1.results.length ≤
        cfg.shortlistLimit ∧
    SHORTLIST_LIMIT = 5 ∧
    ((scanClustered cfg startDate endDate files).length < cfg.shortlistLimit →
      ∀ s ∈ scanScored cfg startDate endDate files,
        ∃ r ∈ (runScan cfg startDate endDate files).1.results,
          r.score = s) := by
  refine ⟨?_, rfl, ?_⟩
  · simp only [runScan]
    rw [List.length_map, List.enum_length]
    exact length_selectorFold scannerKey cfg.shortlistLimit _
  · intro hlt s hs
    have hlen : (scanScored cfg startDate endDate files).length <
        cfg.shortlistLimit := by
      rw [scanScored, length_applyAesthetic]
      exact hlt
    have hperm := selectorFold_all scannerKey cfg.shortlistLimit
      (scanScored cfg startDate endDate files) (Nat.le_of_lt hlen)
    have hmem : s ∈ selectorResults cfg.shortlistLimit
        (scanScored cfg startDate endDate files) := by
      rw [selectorResults]
      exact hperm.mem_iff.mpr hs
    simp only [runScan]
    exact mem_enumFrom_map_fromScore hmem 0

/-- C3 witness: the bound applied to the empty directory with the default
configuration (no candidates survive clustering, and the antecedent of the
coverage clause is the concrete `0 < 5`). -/
theorem c3_witness :
    (runScan sampleConfig 0 0 []).1.results.length ≤
        sampleConfig.shortlistLimit ∧
    (∀ s ∈ scanScored sampleConfig 0 0 [],
      ∃ r ∈ (runScan sampleConfig 0 0 []).1.results, r.score = s) :=
  ⟨(c3_shortlist_bound sampleConfig 0 0 []).1,
   (c3_shortlist_bound sampleConfig 0 0 []).2.2 (by decide)⟩

/-! ## The enumeration loop: counter and candidate bookkeeping -/

theorem scanStep_spec (gate : GateConfig) (s e : ℤ) (st : ScanLoopState)
    (f : SourceFile) :
    (scanStep gate s e st f).totalFiles = st.totalFiles + 1 ∧
    (scanStep gate s e st f).matchedFiles =
      st.matchedFiles + (if fileSeen s e f then 1 else 0) ∧
    (scanStep gate s e st f).discardedFiles =
      st.discardedFiles + (if fileDropped gate s e f then 1 else 0) ∧
    (scanStep gate s e st f).candidates =
      st.candidates ++
        (if fileKept gate s e f then [candidateOf gate f] else []) := by
  cases hd : f.decodeOk with
  | false =>
      simp [scanStep, processImage, fileSeen, fileDropped, fileKept, hd]
  | true =>
      cases hr : isWithinRange f.capturedDate s e with
      | false =>
          simp [scanStep, processImage, fileSeen, fileDropped, fileKept, hd, hr]
      | true =>
          by_cases hq : (QualityGate.evaluate gate f.img).status = "drop"
          · simp [scanStep, processImage, fileSeen, fileDropped, fileKept,
              hd, hr, hq]
          · simp [scanStep, processImage, fileSeen, fileDropped, fileKept,
              hd, hr, hq, candidateOf]

theorem scanFold_spec (gate : GateConfig) (s e : ℤ) :
    ∀ (files : List SourceFile) (st : ScanLoopState),
    (files.foldl (scanStep gate s e) st).totalFiles =
      st.totalFiles + files.length ∧
    (files.foldl (scanStep gate s e) st).matchedFiles =
      st.matchedFiles + files.countP (fileSeen s e) ∧
    (files.foldl (scanStep gate s e) st).discardedFiles =
      st.discardedFiles + files.countP (fileDropped gate s e) ∧
    (files.foldl (scanStep gate s e) st).candidates =
      st.candidates ++
        (files.filter (fileKept gate s e)).map (candidateOf gate) := by
  intro files
  induction files with
  | nil => intro st; simp
  | cons f rest ih =>
      intro st
      obtain ⟨h1, h2, h3, h4⟩ := ih (scanStep gate s e st f)
      obtain ⟨g1, g2, g3, g4⟩ := scanStep_spec gate s e st f
      refine ⟨?_, ?_, ?_, ?_⟩
      · rw [List.foldl_cons, h1, g1, List.length_cons]
        omega
      · rw [List.foldl_cons, h2, g2, List.countP_cons]
        by_cases hf : fileSeen s e f <;> simp [hf] <;> omega
      · rw [List.foldl_cons, h3, g3, List.countP_cons]
        by_cases hf : fileDropped gate s e f <;> simp [hf] <;> omega
      · rw [List.foldl_cons, h4, g4, List.filter_cons]
        by_cases hf : fileKept gate s e f <;> simp [hf]

/-! ## Membership through clustering, scoring and selection -/

theorem placeOne_mem (thr : ℕ) :
    ∀ (clusters : List (List ScanCandidate)) (c : ScanCandidate)
      (cl : List ScanCandidate), cl ∈ placeOne thr clusters c →
      ∀ y ∈ cl, (∃ cl' ∈ clusters, y ∈ cl') ∨ y = c := by
  intro clusters
  induction clusters with
  | nil =>
      intro c cl hcl y hy
      simp only [placeOne, List.mem_singleton] at hcl
      subst hcl
      right
      simpa using hy
  | cons hd rest ih =>
      intro c cl hcl y hy
      by_cases hc : hd.any (fun e' => hashDistance c.phash e'.phash ≤ thr)
      · simp only [placeOne, if_pos hc, List.mem_cons] at hcl
        rcases hcl with rfl | hclr
        · rcases List.mem_append.mp hy with hyh | hyc
          · exact Or.inl ⟨hd, List.mem_cons_self hd rest, hyh⟩
          · exact Or.inr (List.mem_singleton.mp hyc)
        · exact Or.inl ⟨cl, List.mem_cons_of_mem hd hclr, hy⟩
      · simp only [placeOne, if_neg hc, List.mem_cons] at hcl
        rcases hcl with rfl | hclr
        · exact Or.inl ⟨cl, List.mem_cons_self cl rest, hy⟩
        · rcases ih c cl hclr y hy with ⟨cl', hcl', hy'⟩ | rfl
          · exact Or.inl ⟨cl', List.mem_cons_of_mem hd hcl', hy'⟩
          · exact Or.inr rfl

theorem buildClusters_mem (thr : ℕ) :
    ∀ (cands : List ScanCandidate) (acc : List (List ScanCandidate))
      (cl : List ScanCandidate), cl ∈ cands.foldl (placeOne thr) acc →
      ∀ y ∈ cl, (∃ cl' ∈ acc, y ∈ cl') ∨ y ∈ cands := by
  intro cands
  induction cands with
  | nil =>
      intro acc cl hcl y hy
      exact Or.inl ⟨cl, hcl, hy⟩
  | cons c rest ih =>
      intro acc cl hcl y hy
      rw [List.foldl_cons] at hcl
      rcases ih (placeOne thr acc c) cl hcl y hy with ⟨cl', hcl', hy'⟩ | hyr
      · rcases placeOne_mem thr acc c cl' hcl' y hy' with ⟨cl2, hcl2, hy2⟩ | rfl
        · exact Or.inl ⟨cl2, hcl2, hy2⟩
        · exact Or.inr (List.mem_cons_self y rest)
      · exact Or.inr (List.mem_cons_of_mem c hyr)

theorem mem_rankTag (cid : String) (size keep : ℕ) :
    ∀ (r : ℕ) (l : List ScanCandidate) (x : ScanCandidate),
      x ∈ rankTag cid size keep r l →
      ∃ y ∈ l, ∃ rk, x = tagCandidate cid size rk y := by
  intro r l
  induction l generalizing r with
  | nil => intro x hx; simp [rankTag] at hx
  | cons c rest ih =>
      intro x hx
      rcases List.mem_append.mp hx with hxl | hxr
      · by_cases hr : r ≤ keep
        · simp only [if_pos hr, List.mem_singleton] at hxl
          exact ⟨c, List.mem_cons_self c rest, r, hxl⟩
        · simp [if_neg hr] at hxl
      · obtain ⟨y, hy, rk, hrk⟩ := ih (r + 1) x hxr
        exact ⟨y, List.mem_cons_of_mem c hy, rk, hrk⟩

/-- Every member of the clusterer's output is a tagged copy of some input
candidate. -/
theorem mem_cluster (cfg : ClusterConfig) (cands : List ScanCandidate)
    (x : ScanCandidate) (hx : x ∈ PhashClusterer.cluster cfg cands) :
    ∃ y ∈ cands, ∃ cid sz rk, x = tagCandidate cid sz rk y := by
  unfold PhashClusterer.cluster at hx
  split_ifs at hx with hnil
  · simp at hx
  · obtain ⟨l, hl, hxl⟩ := List.mem_flatten.mp hx
    obtain ⟨p, hp, hpl⟩ := List.mem_map.mp hl
    obtain ⟨i, cl2⟩ := p
    rw [← hpl] at hxl
    unfold survivorsOf at hxl
    obtain ⟨y, hy, rk, hrk⟩ := mem_rankTag _ _ _ 1 _ x hxl
    have hycl : y ∈ cl2 := (mem_sortDesc clusterKey).mp hy
    obtain ⟨hi, hcl2⟩ := List.mem_enum hp
    have hclmem : cl2 ∈ buildClusters cfg.distanceThreshold cands := by
      rw [hcl2]
      exact List.getElem_mem hi
    have hcands :
        (∃ cl' ∈ ([] : List (List ScanCandidate)), y ∈ cl') ∨ y ∈ cands :=
      buildClusters_mem cfg.distanceThreshold cands [] cl2 hclmem y hycl
    rcases hcands with ⟨cl', hcl', _⟩ | hyc
    · exact absurd hcl' (List.not_mem_nil cl')
    · exact ⟨y, hyc, _, _, _, hrk⟩

theorem mem_applyAesthetic_path :
    ∀ (e : AestheticEngine) (cache : List (ℕ × ℚ))
      (l : List ScanCandidate) (s : PhotoScore),
      s ∈ applyAesthetic e cache l → ∃ c ∈ l, s.path = c.score.path := by
  intro e cache l
  induction l generalizing e cache with
  | nil => intro s hs; simp [applyAesthetic] at hs
  | cons c rest ih =>
      intro s hs
      simp only [applyAesthetic] at hs
      rcases List.mem_cons.mp hs with rfl | hs'
      · exact ⟨c, List.mem_cons_self c rest, rfl⟩
      · obtain ⟨c', hc', hp'⟩ := ih _ _ s hs'
        exact ⟨c', List.mem_cons_of_mem c hc', hp'⟩

/-- The score carried by a shortlist entry was one of the selector inputs. -/
theorem results_score_mem {L : List PhotoScore} {r : PhotoResultM}
    (hr : r ∈ L.enum.map (fun p => fromScore p.1 p.2)) : r.score ∈ L := by
  obtain ⟨p, hp, hpr⟩ := List.mem_map.mp hr
  obtain ⟨i, s⟩ := p
  obtain ⟨hi, hs⟩ := List.mem_enum hp
  rw [← hpr]
  show s ∈ L
  rw [hs]
  exact List.getElem_mem hi

/-! ## C2: dropped images are excluded from results yet counted -/

/-- C2: an enumerated image that decodes, falls inside the date window, and
is dropped by the quality gate never appears in the outcome's results, is
counted in `discarded_files`, and still counts in `total_files` and
`matched_files` (the counters equal the respective tallies over all
enumerated files, tallies the dropped file contributes to). -/
theorem c2_dropped_excluded (cfg : ScanConfig) (s e : ℤ)
    (files : List SourceFile)
    (hnodup : (files.map SourceFile.path).Nodup)
    (f : SourceFile) (hf : f ∈ files)
    (hdrop : fileDropped cfg.gate s e f = true) :
    (∀ r ∈ (runScan cfg s e files).1.results, r.score.path ≠ f.path) ∧
    (runScan cfg s e files).1.totalFiles = files.length ∧
    (runScan cfg s e files).1.matchedFiles = files.countP (fileSeen s e) ∧
    (runScan cfg s e files).1.discardedFiles =
      files.countP (fileDropped cfg.gate s e) ∧
    1 ≤ (runScan cfg s e files).1.matchedFiles ∧
    1 ≤ (runScan cfg s e files).1.discardedFiles := by
  obtain ⟨h1, h2, h3, h4⟩ := scanFold_spec cfg.gate s e files initScanState
  have htot : (runScan cfg s e files).1.totalFiles = files.length := by
    show (scanLoop cfg.gate s e files).totalFiles = _
    rw [scanLoop, h1]
    simp [initScanState]
  have hmat : (runScan cfg s e files).1.matchedFiles =
      files.countP (fileSeen s e) := by
    show (scanLoop cfg.gate s e files).matchedFiles = _
    rw [scanLoop, h2]
    simp [initScanState]
  have hdis : (runScan cfg s e files).1.discardedFiles =
      files.countP (fileDropped cfg.gate s e) := by
    show (scanLoop cfg.gate s e files).discardedFiles = _
    rw [scanLoop, h3]
    simp [initScanState]
  have hseen : fileSeen s e f = true := by
    have h := hdrop
    rw [fileDropped, Bool.and_eq_true] at h
    exact h.1
  refine ⟨?_, htot, hmat, hdis, ?_, ?_⟩
  · intro r hr heq
    have hrs : r.score ∈ selectorResults cfg.shortlistLimit
        (scanScored cfg s e files) := by
      simp only [runScan] at hr
      exact results_score_mem hr
    have hsc : r.score ∈ scanScored cfg s e files :=
      mem_selectorFold scannerKey hrs
    obtain ⟨c, hc, hpath⟩ := mem_applyAesthetic_path _ _ _ _ hsc
    obtain ⟨y, hy, cid, sz, rk, hsy⟩ := mem_cluster cfg.clusterCfg _ c hc
    have hy2 : y ∈ (files.filter (fileKept cfg.gate s e)).map
        (candidateOf cfg.gate) := by
      have := hy
      rw [scanLoop, h4] at this
      simpa [initScanState] using this
    obtain ⟨f', hf', hcf'⟩ := List.mem_map.mp hy2
    have hf'files : f' ∈ files := List.mem_of_mem_filter hf'
    have hkept : fileKept cfg.gate s e f' = true := List.of_mem_filter hf'
    have hy_path : y.score.path = f'.path := by
      rw [← hcf']
      simp [candidateOf, BrightnessScoringEngine.score]
    have hc_path : c.score.path = y.score.path := by
      rw [hsy]
      simp [tagCandidate]
    have hpp : f'.path = f.path := by
      rw [← hy_path, ← hc_path, ← hpath, heq]
    have hff' : f' = f := List.inj_on_of_nodup_map hnodup hf'files hf hpp
    rw [hff'] at hkept
    rw [fileDropped, Bool.and_eq_true] at hdrop
    rw [fileKept, Bool.and_eq_true] at hkept
    obtain ⟨_, hd2⟩ := hdrop
    obtain ⟨_, hk2⟩ := hkept
    rw [hd2] at hk2
    simp at hk2
  · rw [hmat]
    exact Nat.one_le_iff_ne_zero.mpr
      (Nat.pos_iff_ne_zero.mp (List.countP_pos.mpr ⟨f, hf, hseen⟩))
  · rw [hdis]
    exact Nat.one_le_iff_ne_zero.mpr
      (Nat.pos_iff_ne_zero.mp (List.countP_pos.mpr ⟨f, hf, hdrop⟩))

/-- C2 witness: the dark frame under default thresholds in a one-file scan. -/
theorem c2_witness :
    (∀ r ∈ (runScan sampleConfig 0 0 [darkFile]).1.results,
      r.score.path ≠ darkFile.path) ∧
    (runScan sampleConfig 0 0 [darkFile]).1.totalFiles = [darkFile].length ∧
    (runScan sampleConfig 0 0 [darkFile]).1.matchedFiles =
      [darkFile].countP (fileSeen 0 0) ∧
    (runScan sampleConfig 0 0 [darkFile]).1.discardedFiles =
      [darkFile].countP (fileDropped sampleConfig.gate 0 0) ∧
    1 ≤ (runScan sampleConfig 0 0 [darkFile]).1.matchedFiles ∧
    1 ≤ (runScan sampleConfig 0 0 [darkFile]).1.discardedFiles :=
  c2_dropped_excluded sampleConfig 0 0 [darkFile] (by simp) darkFile
    (by simp)
    (by
      have hstat : (QualityGate.evaluate defaultGate darkImage).status
          = "drop" := by
        simp only [QualityGate.evaluate, aspectStage, dimensionStage,
          blurStage, contrastStageScanner, brightnessStage,
          ImageData.aspectRatio, darkImage, defaultGate]
        norm_num
        decide
      simp [fileDropped, fileSeen, isWithinRange, darkFile, sampleConfig,
        hstat])

/-! ## C4: greedy first-match clustering in input order -/

/-- C4: cluster building processes candidates strictly in input order (one
`placeOne` step per appended candidate); each step appends the candidate to
the first existing cluster, in creation order, holding a member within the
distance threshold — the `specPlace` first-match rule — or starts a new
cluster at the end; and every output item carries `cluster_id`
`"cluster-<n>"` where `n - 1` indexes its cluster in discovery order. -/
theorem c4_cluster_greedy (cfg : ClusterConfig) :
    (∀ (cands : List ScanCandidate) (c : ScanCandidate),
      buildClusters cfg.distanceThreshold (cands ++ [c]) =
        placeOne cfg.distanceThreshold
          (buildClusters cfg.distanceThreshold cands) c) ∧
    (∀ (clusters : List (List ScanCandidate)) (c : ScanCandidate),
      placeOne cfg.distanceThreshold clusters c =
        specPlace cfg.distanceThreshold clusters c) ∧
    (∀ (cands : List ScanCandidate),
      ∀ x ∈ PhashClusterer.cluster cfg cands,
        ∃ j, j < (buildClusters cfg.distanceThreshold cands).length ∧
          x.score.clusterId = some ("cluster-" ++ toString (j + 1))) := by
  refine ⟨?_, ?_, ?_⟩
  · intro cands c
    simp [buildClusters, List.foldl_append]
  · intro clusters c
    induction clusters with
    | nil => simp [placeOne, specPlace]
    | cons hd rest ih =>
        by_cases hc : hd.any
            (fun e' => hashDistance c.phash e'.phash ≤ cfg.distanceThreshold)
        · simp [placeOne, specPlace, List.findIdx?_cons, hc]
        · simp only [placeOne, if_neg hc, specPlace, List.findIdx?_cons, hc,
            Bool.false_eq_true, if_false, List.findIdx?_succ]
          rw [ih]
          unfold specPlace
          cases hfi : List.findIdx?
              (fun cl => cl.any
                (fun e' => hashDistance c.phash e'.phash ≤
                  cfg.distanceThreshold)) rest with
          | none => simp [hfi]
          | some j => simp [hfi]
  · intro cands x hx
    unfold PhashClusterer.cluster at hx
    split_ifs at hx with hnil
    · simp at hx
    · obtain ⟨l, hl, hxl⟩ := List.mem_flatten.mp hx
      obtain ⟨p, hp, hpl⟩ := List.mem_map.mp hl
      obtain ⟨i, cl2⟩ := p
      rw [← hpl] at hxl
      unfold survivorsOf at hxl
      obtain ⟨y, hy, rk, hrk⟩ := mem_rankTag _ _ _ 1 _ x hxl
      obtain ⟨hi, _⟩ := List.mem_enum hp
      refine ⟨i, hi, ?_⟩
      rw [hrk]
      simp [tagCandidate]

/-- C4 witness: the greedy placement applied to a two-candidate input and the
id clause applied to a member of a concrete one-candidate clustering. -/
theorem c4_witness :
    (buildClusters defaultCluster.distanceThreshold
        ([sampleCand] ++ [sampleCand]) =
      placeOne defaultCluster.distanceThreshold
        (buildClusters defaultCluster.distanceThreshold [sampleCand])
        sampleCand) ∧
    (∃ j, j < (buildClusters defaultCluster.distanceThreshold
        [sampleCand]).length ∧
      (tagCandidate "cluster-1" 1 1 sampleCand).score.clusterId =
        some ("cluster-" ++ toString (j + 1))) := by
  have hclu : PhashClusterer.cluster defaultCluster [sampleCand] =
      [tagCandidate "cluster-1" 1 1 sampleCand] := by rfl
  refine ⟨(c4_cluster_greedy defaultCluster).1 [sampleCand] sampleCand, ?_⟩
  exact (c4_cluster_greedy defaultCluster).2.2 [sampleCand]
    (tagCandidate "cluster-1" 1 1 sampleCand)
    (hclu ▸ List.mem_singleton.mpr rfl)

/-! ## C5: the per-cluster survivor cap -/

theorem rankTag_eq (cid : String) (size keep : ℕ) :
    ∀ (l : List ScanCandidate) (r : ℕ),
      rankTag cid size keep r l =
        ((l.take (keep + 1 - r)).enumFrom r).map
          (fun p => tagCandidate cid size p.1 p.2) := by
  intro l
  induction l with
  | nil => intro r; simp [rankTag]
  | cons c rest ih =>
      intro r
      by_cases hr : r ≤ keep
      · have e1 : keep + 1 - r = (keep - r) + 1 := by omega
        have e2 : keep + 1 - (r + 1) = keep - r := by omega
        rw [rankTag, if_pos hr, e1, List.take_succ_cons,
          List.enumFrom_cons, List.map_cons, ih (r + 1), e2]
        rfl
      · have e1 : keep + 1 - r = 0 := by omega
        have e2 : keep + 1 - (r + 1) = 0 := by omega
        rw [rankTag, if_neg hr, ih (r + 1), e1, e2]
        simp

/-- C5: the clusterer's output is the concatenation, in discovery order, of
per-cluster survivor blocks; the block of the cluster at position `j` (of
size `N`) holds exactly `min N keep_per_cluster` members — those with
`cluster_rank <= keep_per_cluster` after the stable descending sort by
`(status, quality_score, sharpness, brightness, contrast)` — and each carries
that cluster's id and `cluster_size = N`. -/
theorem c5_cluster_cap (cfg : ClusterConfig) (cands : List ScanCandidate)
    (j : ℕ) (cl : List ScanCandidate)
    (hj : (buildClusters cfg.distanceThreshold cands)[j]? = some cl) :
    PhashClusterer.cluster cfg cands =
      ((buildClusters cfg.distanceThreshold cands).enum.map
        (fun p => survivorsOf cfg p.1 p.2)).flatten ∧
    (survivorsOf cfg j cl).length = min cl.length cfg.keepPerCluster ∧
    survivorsOf cfg j cl =
      (((sortDesc clusterKey cl).take cfg.keepPerCluster).enumFrom 1).map
        (fun p => tagCandidate ("cluster-" ++ toString (j + 1))
          (sortDesc clusterKey cl).length p.1 p.2) ∧
    (∀ x ∈ survivorsOf cfg j cl,
      x.score.clusterId = some ("cluster-" ++ toString (j + 1)) ∧
      x.score.clusterSize = some cl.length) := by
  have hlen : (sortDesc clusterKey cl).length = cl.length :=
    length_sortDesc clusterKey cl
  have hform : survivorsOf cfg j cl =
      (((sortDesc clusterKey cl).take cfg.keepPerCluster).enumFrom 1).map
        (fun p => tagCandidate ("cluster-" ++ toString (j + 1))
          (sortDesc clusterKey cl).length p.1 p.2) := by
    rw [survivorsOf, rankTag_eq]
    simp
  refine ⟨?_, ?_, hform, ?_⟩
  · have hne : cands ≠ [] := by
      intro hcE
      rw [hcE] at hj
      simp [buildClusters] at hj
    unfold PhashClusterer.cluster
    rw [if_neg hne]
  · rw [hform, List.length_map, List.enumFrom_length, List.length_take, hlen,
      Nat.min_comm]
  · intro x hx
    rw [hform] at hx
    obtain ⟨p, hp, hpx⟩ := List.mem_map.mp hx
    rw [← hpx]
    simp [tagCandidate, hlen]

/-- C5 witness: the cap applied to the one-candidate clustering. -/
theorem c5_witness :
    PhashClusterer.cluster defaultCluster [sampleCand] =
      ((buildClusters defaultCluster.distanceThreshold [sampleCand]).enum.map
        (fun p => survivorsOf defaultCluster p.1 p.2)).flatten ∧
    (survivorsOf defaultCluster 0 [sampleCand]).length =
      min [sampleCand].length defaultCluster.keepPerCluster ∧
    survivorsOf defaultCluster 0 [sampleCand] =
      (((sortDesc clusterKey [sampleCand]).take
          defaultCluster.keepPerCluster).enumFrom 1).map
        (fun p => tagCandidate ("cluster-" ++ toString (0 + 1))
          (sortDesc clusterKey [sampleCand]).length p.1 p.2) ∧
    (∀ x ∈ survivorsOf defaultCluster 0 [sampleCand],
      x.score.clusterId = some ("cluster-" ++ toString (0 + 1)) ∧
      x.score.clusterSize = some [sampleCand].length) :=
  c5_cluster_cap defaultCluster [sampleCand] 0 [sampleCand] (by rfl)

/-! ## C6: the progress-callback trace -/

theorem loopInv_init : loopInv initScanState := by
  refine ⟨rfl, List.chain'_singleton _, rfl⟩

/-- Appending the two per-file callback invocations keeps the invariant. -/
theorem loopInv_push (st : ScanLoopState) (h : loopInv st) (m' d' : ℕ)
    (cands : List ScanCandidate) :
    loopInv
      { totalFiles := st.totalFiles + 1
        processedFiles := st.processedFiles + 1
        matchedFiles := m'
        discardedFiles := d'
        candidates := cands
        trace := (st.trace ++
            [(st.processedFiles, st.totalFiles + 1, st.matchedFiles)]) ++
          [(st.processedFiles + 1, st.totalFiles + 1, m')] } := by
  obtain ⟨hlast, hchain, hpt⟩ := h
  refine ⟨List.getLast?_concat _, ?_, by simp [hpt]⟩
  have c1 : List.Chain' traceMono (st.trace ++
      [(st.processedFiles, st.totalFiles + 1, st.matchedFiles)]) := by
    rw [List.chain'_append]
    refine ⟨hchain, List.chain'_singleton _, ?_⟩
    intro x hx y hy
    rw [hlast] at hx
    rw [Option.mem_some_iff] at hx
    simp only [List.head?_cons, Option.mem_some_iff] at hy
    subst hx
    subst hy
    exact ⟨Nat.le_refl _, Nat.le_succ _⟩
  rw [List.chain'_append]
  refine ⟨c1, List.chain'_singleton _, ?_⟩
  intro x hx y hy
  rw [List.getLast?_concat, Option.mem_some_iff] at hx
  simp only [List.head?_cons, Option.mem_some_iff] at hy
  subst hx
  subst hy
  exact ⟨Nat.le_succ _, Nat.le_refl _⟩

theorem scanStep_inv (gate : GateConfig) (s e : ℤ) (st : ScanLoopState)
    (f : SourceFile) (h : loopInv st) : loopInv (scanStep gate s e st f) := by
  unfold scanStep
  cases processImage gate s e f with
  | none =>
      dsimp only
      exact loopInv_push st h st.matchedFiles st.discardedFiles st.candidates
  | some res =>
      dsimp only
      split
      · exact loopInv_push st h _ _ st.candidates
      · exact loopInv_push st h _ _ _

theorem scanFold_inv (gate : GateConfig) (s e : ℤ) :
    ∀ (files : List SourceFile) (st : ScanLoopState), loopInv st →
      loopInv (files.foldl (scanStep gate s e) st) := by
  intro files
  induction files with
  | nil => intro st h; exact h
  | cons f rest ih =>
      intro st h
      exact ih (scanStep gate s e st f) (scanStep_inv gate s e st f h)

theorem scanStep_trace_append (gate : GateConfig) (s e : ℤ)
    (st : ScanLoopState) (f : SourceFile) :
    ∃ u, (scanStep gate s e st f).trace = st.trace ++ u := by
  unfold scanStep
  cases processImage gate s e f with
  | none =>
      dsimp only
      exact ⟨_, by rw [List.append_assoc]⟩
  | some res =>
      dsimp only
      split
      · exact ⟨_, by rw [List.append_assoc]⟩
      · exact ⟨_, by rw [List.append_assoc]⟩

theorem scanFold_trace_append (gate : GateConfig) (s e : ℤ) :
    ∀ (files : List SourceFile) (st : ScanLoopState),
      ∃ u, (files.foldl (scanStep gate s e) st).trace = st.trace ++ u := by
  intro files
  induction files with
  | nil => intro st; exact ⟨[], by simp⟩
  | cons f rest ih =>
      intro st
      obtain ⟨u, hu⟩ := ih (scanStep gate s e st f)
      obtain ⟨v, hv⟩ := scanStep_trace_append gate s e st f
      exact ⟨v ++ u, by rw [List.foldl_cons, hu, hv, List.append_assoc]⟩

/-- C6: the callback trace of every scan opens with `(0, 0, 0)` (emitted
before enumeration), `processed` and `total` are non-decreasing across
consecutive invocations, and in the final invocation `processed = total`. -/
theorem c6_progress_trace (cfg : ScanConfig) (s e : ℤ)
    (files : List SourceFile) :
    (runScan cfg s e files).2.head? = some (0, 0, 0) ∧
    List.Chain' traceMono (runScan cfg s e files).2 ∧
    ∃ last, (runScan cfg s e files).2.getLast? = some last ∧
      last.1 = last.2.1 := by
  have hinv : loopInv (scanLoop cfg.gate s e files) :=
    scanFold_inv cfg.gate s e files initScanState loopInv_init
  obtain ⟨hlast, hchain, hpt⟩ := hinv
  obtain ⟨u, hu⟩ := scanFold_trace_append cfg.gate s e files initScanState
  refine ⟨?_, hchain, ?_⟩
  · show (scanLoop cfg.gate s e files).trace.head? = some (0, 0, 0)
    rw [scanLoop, hu]
    rfl
  · exact ⟨_, hlast, hpt⟩

/-! ## C8: the heuristic aesthetic score in stub mode -/

theorem mem_of_lookup_eq_some {α β : Type} [BEq α] [LawfulBEq α]
    {l : List (α × β)} {k : α} {v : β} (h : List.lookup k l = some v) :
    (k, v) ∈ l := by
  induction l with
  | nil => simp [List.lookup] at h
  | cons p rest ih =>
      obtain ⟨k', v'⟩ := p
      rw [List.lookup] at h
      cases hk : k == k' with
      | true =>
          rw [hk] at h
          have hv : v' = v := Option.some_injective _ h
          have hkk : k = k' := eq_of_beq hk
          subst hkk
          subst hv
          exact List.mem_cons_self _ rest
      | false =>
          rw [hk] at h
          exact List.mem_cons_of_mem _ (ih h)

theorem stubScore_range (m : Metrics) :
    0 ≤ stubScore m ∧ stubScore m ≤ 10 := by
  unfold stubScore
  constructor
  · exact le_max_left 0 _
  · exact max_le (by norm_num) (min_le_left 10 _)

/-- Writing the `"aesthetic"` key never changes the heuristic's inputs. -/
theorem stubScore_mset_aesthetic (m : Metrics) (v : ℚ) :
    stubScore (Metrics.mset m "aesthetic" v) = stubScore m := by
  unfold stubScore
  rw [Metrics.mget_mset_other m "aesthetic" "brightness" v 0 (by decide),
    Metrics.mget_mset_other m "aesthetic" "contrast" v 0 (by decide),
    Metrics.mget_mset_other m "aesthetic" "sharpness" v 0 (by decide)]

/-- In stub mode the scoring loop writes exactly the heuristic of each
candidate's own metrics, cache hits included, as long as equal file contents
carry equal metrics (true of distinct measurements of one content). -/
theorem applyAesthetic_stub (e : AestheticEngine) (he : e.useStub = true) :
    ∀ (l : List ScanCandidate) (cache : List (ℕ × ℚ)),
      (∀ kv ∈ cache, ∃ m : Metrics, kv.2 = stubScore m ∧
        ∀ c ∈ l, e.hashFile c.score.path = kv.1 → c.score.metrics = m) →
      (∀ c1 ∈ l, ∀ c2 ∈ l,
        e.hashFile c1.score.path = e.hashFile c2.score.path →
        c1.score.metrics = c2.score.metrics) →
      ∀ s ∈ applyAesthetic e cache l,
        ∃ c ∈ l, s = { c.score with
          metrics := Metrics.mset c.score.metrics "aesthetic"
            (stubScore c.score.metrics),
          score := stubScore c.score.metrics } := by
  intro l
  induction l with
  | nil => intro cache _ _ s hs; simp [applyAesthetic] at hs
  | cons c rest ih =>
      intro cache hinv hcontent s hs
      simp only [applyAesthetic, AestheticEngine.scoreOne] at hs
      cases hlk : List.lookup (e.hashFile c.score.path) cache with
      | some v =>
          rw [hlk] at hs
          have hv : v = stubScore c.score.metrics := by
            obtain ⟨m, hm, hall⟩ :=
              hinv (e.hashFile c.score.path, v) (mem_of_lookup_eq_some hlk)
            have hm' : v = stubScore m := hm
            have hall' : c.score.metrics = m :=
              hall c (List.mem_cons_self c rest) rfl
            rw [hm', hall']
          rcases List.mem_cons.mp hs with rfl | hs'
          · exact ⟨c, List.mem_cons_self c rest, by rw [hv]⟩
          · obtain ⟨c', hc', he'⟩ := ih cache
              (fun kv hkv => by
                obtain ⟨m, hm, hall⟩ := hinv kv hkv
                exact ⟨m, hm, fun c2 hc2 => hall c2 (List.mem_cons_of_mem c hc2)⟩)
              (fun c1 h1 c2 h2 =>
                hcontent c1 (List.mem_cons_of_mem c h1) c2
                  (List.mem_cons_of_mem c h2))
              s hs'
            exact ⟨c', List.mem_cons_of_mem c hc', he'⟩
      | none =>
          rw [hlk, he] at hs
          simp only [if_true] at hs
          rcases List.mem_cons.mp hs with rfl | hs'
          · exact ⟨c, List.mem_cons_self c rest, rfl⟩
          · obtain ⟨c', hc', he'⟩ := ih
              (cache ++ [(e.hashFile c.score.path, stubScore c.score.metrics)])
              (fun kv hkv => by
                rcases List.mem_append.mp hkv with hkv1 | hkv2
                · obtain ⟨m, hm, hall⟩ := hinv kv hkv1
                  exact ⟨m, hm, fun c2 hc2 =>
                    hall c2 (List.mem_cons_of_mem c hc2)⟩
                · obtain rfl := List.mem_singleton.mp hkv2
                  exact ⟨c.score.metrics, rfl, fun c2 hc2 hh =>
                    hcontent c2 (List.mem_cons_of_mem c hc2) c
                      (List.mem_cons_self c rest) hh⟩)
              (fun c1 h1 c2 h2 =>
                hcontent c1 (List.mem_cons_of_mem c h1) c2
                  (List.mem_cons_of_mem c h2))
              s hs'
            exact ⟨c', List.mem_cons_of_mem c hc', he'⟩

/-- C8: with the ML backend absent, disabled or failed (`use_stub`), every
result's aesthetic — `metrics["aesthetic"]` and the aggregate `score` — is
the clamped heuristic `max 0 (min 10 (brightness/255*4 + contrast/255*2.5 +
min sharpness 300 / 60))` of that result's own metrics, and lies in
`[0, 10]`; equal file contents are assumed to carry equal metrics (content
determines the image). -/
theorem c8_stub_heuristic (cfg : ScanConfig) (s e : ℤ)
    (files : List SourceFile) (hstub : cfg.engine.useStub = true)
    (hcontent : ∀ c1 ∈ scanClustered cfg s e files,
      ∀ c2 ∈ scanClustered cfg s e files,
      cfg.engine.hashFile c1.score.path = cfg.engine.hashFile c2.score.path →
      c1.score.metrics = c2.score.metrics) :
    ∀ r ∈ (runScan cfg s e files).1.results,
      r.score.metrics.mget "aesthetic" 0 = stubScore r.score.metrics ∧
      r.score.score = stubScore r.score.metrics ∧
      0 ≤ r.score.metrics.mget "aesthetic" 0 ∧
      r.score.metrics.mget "aesthetic" 0 ≤ 10 := by
  intro r hr
  have hrs : r.score ∈ selectorResults cfg.shortlistLimit
      (scanScored cfg s e files) := by
    simp only [runScan] at hr
    exact results_score_mem hr
  have hsc : r.score ∈ scanScored cfg s e files :=
    mem_selectorFold scannerKey hrs
  obtain ⟨c, hc, hceq⟩ := applyAesthetic_stub cfg.engine hstub
    (scanClustered cfg s e files) [] (by simp) hcontent r.score hsc
  have hmet : r.score.metrics =
      Metrics.mset c.score.metrics "aesthetic" (stubScore c.score.metrics) := by
    rw [hceq]
  have hstub_eq : stubScore r.score.metrics = stubScore c.score.metrics := by
    rw [hmet, stubScore_mset_aesthetic]
  have hget : r.score.metrics.mget "aesthetic" 0 = stubScore c.score.metrics := by
    rw [hmet, Metrics.mget_mset_self]
  obtain ⟨hlo, hhi⟩ := stubScore_range c.score.metrics
  refine ⟨?_, ?_, ?_, ?_⟩
  · rw [hget, hstub_eq]
  · rw [hstub_eq, hceq]
  · rw [hget]; exact hlo
  · rw [hget]; exact hhi

/-- The good frame passes every check of scanner.py's gate. -/
theorem goodImage_status :
    (QualityGate.evaluate defaultGate goodImage).status = "keep" := by
  simp only [QualityGate.evaluate, aspectStage, dimensionStage, blurStage,
    contrastStageScanner, brightnessStage, ImageData.aspectRatio, goodImage,
    defaultGate]
  norm_num

/-- The one-good-file scan accumulates exactly its candidate. -/
theorem goodFile_candidates :
    (scanLoop sampleConfig.gate 0 0 [goodFile]).candidates =
      [candidateOf sampleConfig.gate goodFile] := by
  have hkept : fileKept sampleConfig.gate 0 0 goodFile = true := by
    simp [fileKept, fileSeen, isWithinRange, goodFile, sampleConfig,
      goodImage_status]
  have h4 :=
    (scanFold_spec sampleConfig.gate 0 0 [goodFile] initScanState).2.2.2
  rw [scanLoop, h4]
  simp [initScanState, List.filter_cons, hkept]

/-- The one-good-file scan shortlists exactly the scored photo. -/
theorem goodFile_results :
    (runScan sampleConfig 0 0 [goodFile]).1.results =
      [fromScore 0 c8ScoredPhoto] := by
  show (selectorResults sampleConfig.shortlistLimit
      (scanScored sampleConfig 0 0 [goodFile])).enum.map
      (fun p => fromScore p.1 p.2) = _
  rw [scanScored, scanClustered, goodFile_candidates]
  rfl

/-- C8 witness: the stub heuristic applied to the one photo a one-good-file
scan shortlists under the backend-disabled engine. -/
theorem c8_witness :
    (fromScore 0 c8ScoredPhoto).score.metrics.mget "aesthetic" 0 =
      stubScore (fromScore 0 c8ScoredPhoto).score.metrics ∧
    (fromScore 0 c8ScoredPhoto).score.score =
      stubScore (fromScore 0 c8ScoredPhoto).score.metrics ∧
    0 ≤ (fromScore 0 c8ScoredPhoto).score.metrics.mget "aesthetic" 0 ∧
    (fromScore 0 c8ScoredPhoto).score.metrics.mget "aesthetic" 0 ≤ 10 :=
  c8_stub_heuristic sampleConfig 0 0 [goodFile] rfl
    (by
      intro c1 h1 c2 h2 _
      have hclu : scanClustered sampleConfig 0 0 [goodFile] =
          [tagCandidate "cluster-1" 1 1
            (candidateOf sampleConfig.gate goodFile)] := by
        rw [scanClustered, goodFile_candidates]
        rfl
      rw [hclu, List.mem_singleton] at h1 h2
      rw [h1, h2])
    (fromScore 0 c8ScoredPhoto)
    (by rw [goodFile_results]; exact List.mem_singleton.mpr rfl)

/-! ## C9: set_selection / snapshot round trip -/

/-- With distinct photo ids, updating the first match is updating the one
match and leaving everything else alone. -/
theorem replaceFirstById_eq_map (results : List PhotoResultM) (pid : ℕ)
    (v : Bool) (hnodup : (results.map PhotoResultM.id).Nodup) :
    replaceFirstById results pid v =
      results.map (fun q => if q.id = pid then { q with selected := v } else q) := by
  induction results with
  | nil => rfl
  | cons p rest ih =>
      rw [List.map_cons, List.nodup_cons] at hnodup
      obtain ⟨hp, hrest⟩ := hnodup
      by_cases hid : p.id = pid
      · rw [replaceFirstById, if_pos hid, List.map_cons, if_pos hid]
        have hfix : ∀ q ∈ rest,
            (if q.id = pid then { q with selected := v } else q) = q := by
          intro q hq
          have hqp : q.id ≠ pid := by
            intro hqe
            have hmm : q.id ∈ List.map PhotoResultM.id rest :=
              List.mem_map_of_mem _ hq
            rw [hqe, ← hid] at hmm
            exact hp hmm
          rw [if_neg hqp]
        rw [List.map_congr_left hfix, List.map_id']
      · rw [replaceFirstById, if_neg hid, List.map_cons, if_neg hid,
          ih hrest]

theorem lookup_aupdate_self {α : Type} (l : List (ℕ × α)) (k : ℕ) (v : α)
    (h : (List.lookup k l).isSome) :
    List.lookup k (aupdate l k v) = some v := by
  induction l with
  | nil => simp [List.lookup] at h
  | cons p rest ih =>
      obtain ⟨k', v'⟩ := p
      by_cases hk : k' = k
      · subst hk
        have haup : aupdate ((k', v') :: rest) k' v =
            (k', v) :: aupdate rest k' v := by
          show List.map _ _ = _
          rw [List.map_cons]
          congr 1
          exact if_pos rfl
        rw [haup, List.lookup]
        simp
      · have hb : (k == k') = false := by
          simp [beq_eq_false_iff_ne]
          exact fun he => hk he.symm
        rw [List.lookup, hb] at h
        simp only [aupdate, List.map_cons, if_neg hk]
        rw [List.lookup, hb]
        exact ih h

/-- C9: when the job and the photo exist (ids distinct, as uuid4 makes them),
`set_selection` reports `True` and a subsequent `snapshot` shows exactly that
photo with `selected = v` and every other field and photo unchanged (the
stored outcome becomes the pointwise map flipping only that photo's flag, and
the status is untouched); when the job or the photo is missing it reports
`False` and changes nothing. -/
theorem c9_set_selection_roundtrip (st : MgrState) (sid pid : ℕ) (v : Bool)
    (ms : MgrStatus) (o : ScanOutcomeM)
    (hs : List.lookup sid st.statuses = some ms)
    (ho : List.lookup sid st.outcomes = some o)
    (hnodup : (o.results.map PhotoResultM.id).Nodup) :
    (pid ∈ o.results.map PhotoResultM.id →
      (ScanManager.setSelection st sid pid v).1.found = true ∧
      (ScanManager.snapshot (ScanManager.setSelection st sid pid v).2 sid).2 =
        some (selectOutcome o pid v) ∧
      (ScanManager.snapshot (ScanManager.setSelection st sid pid v).2 sid).1 =
        some ms) ∧
    (pid ∉ o.results.map PhotoResultM.id →
      (ScanManager.setSelection st sid pid v).1.found = false ∧
      (ScanManager.setSelection st sid pid v).2 = st) ∧
    (∀ sid2 : ℕ, (List.lookup sid2 st.statuses = none ∨
        List.lookup sid2 st.outcomes = none) →
      (ScanManager.setSelection st sid2 pid v).1.found = false ∧
      (ScanManager.setSelection st sid2 pid v).2 = st) := by
  have hany_iff : (o.results.any (fun p => p.id = pid)) = true ↔
      pid ∈ o.results.map PhotoResultM.id := by
    rw [List.any_eq_true]
    constructor
    · rintro ⟨p, hp, hpe⟩
      rw [← show p.id = pid from of_decide_eq_true hpe]
      exact List.mem_map_of_mem _ hp
    · rintro hm
      obtain ⟨p, hp, hpe⟩ := List.mem_map.mp hm
      exact ⟨p, hp, decide_eq_true hpe⟩
  refine ⟨?_, ?_, ?_⟩
  · intro hmem
    have hany : (o.results.any (fun p => p.id = pid)) = true :=
      hany_iff.mpr hmem
    refine ⟨?_, ?_, ?_⟩
    · simp [ScanManager.setSelection, hs, ho, hany]
    · simp only [ScanManager.setSelection, hs, ho, hany, if_true]
      show List.lookup sid (aupdate st.outcomes sid _) = _
      rw [lookup_aupdate_self st.outcomes sid _ (by rw [ho]; rfl)]
      rw [replaceFirstById_eq_map o.results pid v hnodup]
      rfl
    · simp only [ScanManager.setSelection, hs, ho, hany, if_true]
      show List.lookup sid st.statuses = some ms
      exact hs
  · intro hmem
    have hany : (o.results.any (fun p => p.id = pid)) = false := by
      rw [← Bool.not_eq_true]
      intro hc
      exact hmem (hany_iff.mp hc)
    constructor
    · simp [ScanManager.setSelection, hs, ho, hany]
    · simp [ScanManager.setSelection, hs, ho, hany]
  · intro sid2 hnone
    rcases hnone with hn | hn
    · cases hlo : List.lookup sid2 st.outcomes with
      | none =>
          constructor <;> simp [ScanManager.setSelection, hn, hlo]
      | some o2 =>
          constructor <;> simp [ScanManager.setSelection, hn, hlo]
    · cases hls : List.lookup sid2 st.statuses with
      | none =>
          constructor <;> simp [ScanManager.setSelection, hn, hls]
      | some s2 =>
          constructor <;> simp [ScanManager.setSelection, hn, hls]

/-- C9 witness: toggling photo 0 of the two-photo job in `sampleMgr`. -/
theorem c9_witness :
    (ScanManager.setSelection sampleMgr 1 0 true).1.found = true ∧
    (ScanManager.snapshot (ScanManager.setSelection sampleMgr 1 0 true).2 1).2 =
      some (selectOutcome sampleOutcome 0 true) ∧
    (ScanManager.snapshot (ScanManager.setSelection sampleMgr 1 0 true).2 1).1 =
      some sampleStatus :=
  (c9_set_selection_roundtrip sampleMgr 1 0 true sampleStatus sampleOutcome
    rfl rfl (by simp [sampleOutcome, samplePhoto, fromScore])).1
    (by simp [sampleOutcome, samplePhoto, fromScore])

/-! ## C7: the copies the manager hands out are shallow -/

theorem hread_hsetSelected_self (h : Heap) (r : ℕ) (v : Bool) :
    hread (hsetSelected h r v) r =
      (hread h r).map (fun p => { p with selected := v }) := by
  induction h with
  | nil => rfl
  | cons kv rest ih =>
      obtain ⟨k, p⟩ := kv
      by_cases hk : k = r
      · subst hk
        have hset : hsetSelected ((k, p) :: rest) k v =
            (k, { p with selected := v }) :: hsetSelected rest k v := by
          show List.map _ _ = _
          rw [List.map_cons]
          congr 1
          exact if_pos rfl
        rw [hset]
        show List.lookup k _ = _
        rw [List.lookup]
        simp [hread, List.lookup]
      · have hb : (r == k) = false := by
          simp [beq_eq_false_iff_ne]
          exact fun he => hk he.symm
        simp only [hsetSelected, List.map_cons, if_neg hk]
        show List.lookup r _ = _
        rw [List.lookup, hb]
        have hrhs : hread ((k, p) :: rest) r = hread rest r := by
          show List.lookup r _ = _
          rw [List.lookup, hb]
          rfl
        rw [hrhs]
        exact ih

/-- C7 counterexample: in a one-photo job, `get_outcome` returns an outcome
whose results list holds the very reference the stored outcome holds (cell
0), and a caller's `selected = True` write through that reference flips the
photo the stored outcome designates — the returned value is not a deep copy
and does expose internal mutable state. -/
theorem c7_counterexample :
    (ScanManager.getOutcomeRefs sampleHMgr 7).map HOutcome.resultRefs =
      some [0] ∧
    (List.lookup 7 sampleHMgr.outcomes).map HOutcome.resultRefs = some [0] ∧
    (hread sampleHeap 0).map PhotoResultM.selected = some false ∧
    (hread (hsetSelected sampleHeap 0 true) 0).map PhotoResultM.selected =
      some true :=
  ⟨rfl, rfl, rfl, rfl⟩

/-- C7 (amended): `get_outcome` (and `snapshot`, which builds the outcome the
same way) returns a fresh `ScanOutcome` whose counters are copied and whose
results list is a new list containing the same `PhotoResult` references as
the stored outcome; mutating `selected` through any returned reference is
mutating the photo the stored outcome references. `get_status`'s
`replace(status)` copy is field-wise and safe. -/
theorem c7_shallow_copy_amended (st : HMgrState) (sid : ℕ) (o : HOutcome)
    (ho : List.lookup sid st.outcomes = some o) :
    ScanManager.getOutcomeRefs st sid =
      some { resultRefs := o.resultRefs, totalFiles := o.totalFiles,
             matchedFiles := o.matchedFiles,
             discardedFiles := o.discardedFiles } ∧
    (∀ (h : Heap), ∀ r ∈ o.resultRefs, ∀ v : Bool,
      hread (hsetSelected h r v) r =
        (hread h r).map (fun p => { p with selected := v })) := by
  constructor
  · simp only [ScanManager.getOutcomeRefs, ho]
  · intro h r _ v
    exact hread_hsetSelected_self h r v

/-- C7 amended witness: the shallow-copy description at the concrete
one-photo job. -/
theorem c7_witness :
    ScanManager.getOutcomeRefs sampleHMgr 7 =
      some { resultRefs := sampleHOutcome.resultRefs,
             totalFiles := sampleHOutcome.totalFiles,
             matchedFiles := sampleHOutcome.matchedFiles,
             discardedFiles := sampleHOutcome.discardedFiles } ∧
    (∀ (h : Heap), ∀ r ∈ sampleHOutcome.resultRefs, ∀ v : Bool,
      hread (hsetSelected h r v) r =
        (hread h r).map (fun p => { p with selected := v })) :=
  c7_shallow_copy_amended sampleHMgr 7 sampleHOutcome rfl

end PA
